import Mathlib

/-!
Verification of the NGuard geospatial field-file ingestion subsystem
(src/lib/polygonFile.ts, src/lib/geotiffArea.ts, src/app/api/field-area/route.ts).

The TypeScript source is shallowly embedded:
  * JavaScript `number` arithmetic is idealized as exact real arithmetic (`ℝ`);
    `Math.sin` is `Real.sin`, `Math.round` is `⌊x + 1/2⌋` (JS rounds ties up).
  * Byte buffers are `List ℕ`; `DataView` reads are modelled in `Except`,
    a read past the end of the buffer being the JS `RangeError` throw.
  * A function that can `throw` returns `Except String α`, the thrown
    message being the error value.
-/

/-- JS `Math.round`: round half toward positive infinity. -/
noncomputable def jsRound (x : ℝ) : ℤ := ⌊x + 1/2⌋

/-- `Math.round(x * 100) / 100` — round to 2 decimals. -/
noncomputable def round2 (x : ℝ) : ℝ := (jsRound (x * 100) : ℝ) / 100

/-- `Math.round(x * 10000) / 10000` — round to 4 decimals. -/
noncomputable def round4 (x : ℝ) : ℝ := (jsRound (x * 10000) : ℝ) / 10000

/-- `Math.round(x * 1e6) / 1e6` — round to 6 decimals. -/
noncomputable def round6 (x : ℝ) : ℝ := (jsRound (x * 1000000) : ℝ) / 1000000

/-! ## Shared geometry (src/lib/polygonFile.ts lines 3-88) -/

/-- `EARTH_RADIUS_METERS` constant. -/
def EARTH_RADIUS_METERS : ℝ := 6378137

/-- `SQ_METERS_PER_ACRE` constant. -/
noncomputable def SQ_METERS_PER_ACRE : ℝ := 4046.8564224

/-- A 2-D point (`interface XY`). -/
structure XY where
  x : ℝ
  y : ℝ

/-- A longitude/latitude pair (`interface LonLat`). -/
structure LonLat where
  lon : ℝ
  lat : ℝ

/-- `toRad(v) = v * Math.PI / 180`. -/
noncomputable def toRad (v : ℝ) : ℝ := v * Real.pi / 180

/-- `closeRingXY`: append the first point when the ring is not already closed. -/
noncomputable def closeRingXY (points : List XY) : List XY :=
  match points.head?, points.getLast? with
  | some a, some b =>
    if a.x = b.x ∧ a.y = b.y then points else points ++ [a]
  | _, _ => points

/-- The summand of the `ringGeodesicSignedAreaSqMeters` loop for one consecutive
pair of ring points. -/
noncomputable def geoTerm (p q : XY) : ℝ :=
  toRad (q.x - p.x) * (2 + Real.sin (toRad p.y) + Real.sin (toRad q.y))

/-- The accumulation loop of `ringGeodesicSignedAreaSqMeters`: sum of `geoTerm`
over consecutive pairs. -/
noncomputable def geoEdgeSum : List XY → ℝ
  | p :: q :: rest => geoTerm p q + geoEdgeSum (q :: rest)
  | _ => 0

/-- `ringGeodesicSignedAreaSqMeters` (polygonFile.ts lines 49-58). -/
noncomputable def ringGeodesicSignedAreaSqMeters (ringIn : List XY) : ℝ :=
  geoEdgeSum (closeRingXY ringIn) * EARTH_RADIUS_METERS * EARTH_RADIUS_METERS / 2

/-- The accumulation loop of `ringPlanarSignedArea`: sum of cross products over
consecutive pairs. -/
noncomputable def planarEdgeSum : List XY → ℝ
  | a :: b :: rest => (a.x * b.y - b.x * a.y) + planarEdgeSum (b :: rest)
  | _ => 0

/-- `ringPlanarSignedArea` (polygonFile.ts lines 60-69). -/
noncomputable def ringPlanarSignedArea (ringIn : List XY) : ℝ :=
  planarEdgeSum (closeRingXY ringIn) / 2

/-- The accumulation loop of `ringPlanarCentroid`: `(a2, cx, cy)`. -/
noncomputable def centroidAccum : List XY → ℝ × ℝ × ℝ
  | p :: q :: rest =>
    let cross := p.x * q.y - q.x * p.y
    let r := centroidAccum (q :: rest)
    (r.1 + cross, r.2.1 + (p.x + q.x) * cross, r.2.2 + (p.y + q.y) * cross)
  | _ => (0, 0, 0)

/-- `ringPlanarCentroid` (polygonFile.ts lines 71-88). -/
noncomputable def ringPlanarCentroid (ringIn : List XY) : XY :=
  let ring := closeRingXY ringIn
  let acc := centroidAccum ring
  open Classical in
  if acc.1 = 0 then ring.headD ⟨0, 0⟩
  else ⟨acc.2.1 / (3 * acc.1), acc.2.2 / (3 * acc.1)⟩

/-- `isLikelyLonLat` (polygonFile.ts lines 38-47), as the proposition the
boolean loop decides: every point of every ring lies in
`[-180,180] × [-90,90]`. -/
def isLikelyLonLat (rings : List (List XY)) : Prop :=
  ∀ ring ∈ rings, ∀ p ∈ ring, -180 ≤ p.x ∧ p.x ≤ 180 ∧ -90 ≤ p.y ∧ p.y ≤ 90

/-! ## combineRings (polygonFile.ts lines 90-172) -/

/-- The `source` tag of `PolygonFileResult`. -/
inductive PolygonSource where
  | geojson
  | shp
  | zipShp
  | table
deriving DecidableEq

/-- `PolygonFileResult` (polygonFile.ts lines 6-14). -/
structure PolygonFileResult where
  areaSqMeters : ℝ
  areaAcres : ℝ
  centroidLat : ℝ
  centroidLon : ℝ
  ringCount : ℕ
  pointCount : ℕ
  source : PolygonSource

/-- The optional third argument of `combineRings`
(`{ prjText?: string; dbfLonLat?: LonLat | null }`). -/
structure CombineOptions where
  prjText : Option String
  dbfLonLat : Option LonLat

/-- Naive substring test used to model JS `String.prototype.includes`. -/
def strHas (hay need : List Char) : Bool :=
  (List.range (hay.length + 1)).any (fun i => need.isPrefixOf (hay.drop i))

/-- `String.prototype.toLowerCase`, modelled character-wise (faithful for
the ASCII text the source compares against). -/
def lowerAscii (s : String) : String := String.mk (s.data.map Char.toLower)

/-- The projected-unit determination of `combineRings`
(polygonFile.ts lines 128-136): `.prj` text mentioning `foot_us` /
`us survey foot` / `foot` / `meter` decides the unit-to-meters factor; any
other nonempty text is a hard failure. -/
def unitToMeters (prjText : Option String) : Except String ℝ :=
  let prj := lowerAscii (prjText.getD (String.mk []))
  if strHas prj.data ("foot_us").data || strHas prj.data ("us survey foot").data then
    .ok 0.3048006096012192
  else if strHas prj.data ("foot").data then
    .ok 0.3048
  else if prj.data ≠ [] && !(strHas prj.data ("meter").data) then
    .error ("Projected shapefile units are unknown. Include .prj with meter/foot units.")
  else
    .ok 1

/-- The geographic-branch loop of `combineRings` (lines 105-114):
fold producing `(signedAreaSum, centroidXWeighted, centroidYWeighted)`;
rings with fewer than 3 points are skipped. -/
noncomputable def geoAccum (rings : List (List XY)) : ℝ × ℝ × ℝ :=
  rings.foldl
    (fun acc ring =>
      if ring.length < 3 then acc
      else
        let area := ringGeodesicSignedAreaSqMeters ring
        let c := ringPlanarCentroid ring
        let w := |area|
        (acc.1 + area, acc.2.1 + c.x * w, acc.2.2 + c.y * w))
    (0, 0, 0)

/-- The projected-branch loop of `combineRings` (lines 138-147), with unit
factor `u`: planar signed areas scaled by `u²`. -/
noncomputable def projAccum (u : ℝ) (rings : List (List XY)) : ℝ × ℝ × ℝ :=
  rings.foldl
    (fun acc ring =>
      if ring.length < 3 then acc
      else
        let areaM2 := ringPlanarSignedArea ring * u * u
        let c := ringPlanarCentroid ring
        let w := |areaM2|
        (acc.1 + areaM2, acc.2.1 + c.x * w, acc.2.2 + c.y * w))
    (0, 0, 0)

open Classical in
/-- `combineRings` (polygonFile.ts lines 90-172), the shared area/centroid
core every polygon sub-parser funnels into. -/
noncomputable def combineRings (rings : List (List XY)) (source : PolygonSource)
    (options : CombineOptions) : Except String PolygonFileResult :=
  if rings.isEmpty then .error ("No polygon rings found.")
  else
    let pointCount := (rings.map List.length).sum
    if isLikelyLonLat rings then
      let acc := geoAccum rings
      let absArea := |acc.1|
      if absArea = 0 then .error ("Polygon area is zero.")
      else
        .ok
          { areaSqMeters := round2 absArea
            areaAcres := round2 (absArea / SQ_METERS_PER_ACRE)
            centroidLon := round6 (acc.2.1 / absArea)
            centroidLat := round6 (acc.2.2 / absArea)
            ringCount := rings.length
            pointCount := pointCount
            source := source }
    else
      match unitToMeters options.prjText with
      | .error e => .error e
      | .ok u =>
        let acc := projAccum u rings
        let absArea := |acc.1|
        if absArea = 0 then .error ("Polygon area is zero.")
        else
          match options.dbfLonLat with
          | some ll =>
            .ok
              { areaSqMeters := round2 absArea
                areaAcres := round2 (absArea / SQ_METERS_PER_ACRE)
                centroidLon := round6 ll.lon
                centroidLat := round6 ll.lat
                ringCount := rings.length
                pointCount := pointCount
                source := source }
          | none =>
            .error
              ("Polygon is projected. Add longitude/latitude columns in DBF or use WGS84 geometry.")

/-! ## Raster area estimator (src/lib/geotiffArea.ts) -/

/-- `GeoTiffAreaResult` (geotiffArea.ts). The optional centroid is
`(lat, lon)`. -/
structure GeoTiffAreaResult where
  areaSqMeters : ℝ
  areaAcres : ℝ
  width : ℕ
  height : ℕ
  pixelSizeX : ℝ
  pixelSizeY : ℝ
  units : String
  centroid : Option (ℝ × ℝ)
  warnings : List String

/-- The unit-factor determination of `estimateAreaFromGeoTiff`
(geotiffArea.ts lines 294-305), from the geo-key linear-unit code (3076):
`(unitFactor, units, warnings)`.  `none` models an absent key; JS treats a
key value of `0` as falsy, hence like an absent key for the warning. -/
noncomputable def geoTiffUnitFactor (linearUnitCode : Option ℕ) : ℝ × String × List String :=
  match linearUnitCode with
  | none => (1, "meters", [])
  | some c =>
    if c = 9002 then (0.3048, "international feet", [])
    else if c = 9003 then (0.3048006096012192, "US survey feet", [])
    else if c ≠ 0 ∧ c ≠ 9001 then
      (1, ("code:" ++ toString c ++ " (assumed meters)"),
        [("Unknown unit code " ++ toString c ++ "; assuming meters.")])
    else (1, "meters", [])

open Classical in
/-- `estimateAreaFromGeoTiff` (geotiffArea.ts lines 272-335), modelled from
the point where the IFD tag values have been extracted by
`parseEntryValues`: `pixelScale` is the decoded value list of tag 33550 (`[]`
when the tag is absent), `modelTransform` of tag 34264, `tiePoint` of tag
33922, and `modelType` / `linearUnitCode` are the inline geo-key values for
keys 1024 / 3076 parsed by `parseGeoKeys` (`none` when absent).  `width` and
`height` are the first values of tags 256/257; JS treats `0`/`undefined`
alike via `!width`. -/
noncomputable def estimateAreaFromGeoTiff (width height : ℕ)
    (pixelScale modelTransform tiePoint : List ℝ)
    (modelType linearUnitCode : Option ℕ) : Except String GeoTiffAreaResult :=
  if width = 0 ∨ height = 0 then .error ("Could not read TIFF width/height.")
  else
    let px0 := |pixelScale.getD 0 0|
    let py0 := |pixelScale.getD 1 0|
    let px := if (px0 = 0 ∨ py0 = 0) ∧ 16 ≤ modelTransform.length then
        |modelTransform.getD 0 0| else px0
    let py := if (px0 = 0 ∨ py0 = 0) ∧ 16 ≤ modelTransform.length then
        |modelTransform.getD 5 0| else py0
    if px = 0 ∨ py = 0 then .error ("GeoTIFF missing pixel scale metadata.")
    else
      let ufw := geoTiffUnitFactor linearUnitCode
      let pixelAreaSqMeters := (px * ufw.1) * (py * ufw.1)
      let areaSqMeters := (width : ℝ) * (height : ℝ) * pixelAreaSqMeters
      let areaAcres := areaSqMeters / SQ_METERS_PER_ACRE
      let centroid : Option (ℝ × ℝ) :=
        if modelType = some 2 ∧ 6 ≤ tiePoint.length ∧ 2 ≤ pixelScale.length then
          let i0 := tiePoint.getD 0 0
          let j0 := tiePoint.getD 1 0
          let x0 := tiePoint.getD 3 0
          let y0 := tiePoint.getD 4 0
          let cx := x0 + ((width : ℝ) / 2 - i0) * pixelScale.getD 0 0
          let cy := y0 - ((height : ℝ) / 2 - j0) * pixelScale.getD 1 0
          if -90 ≤ cy ∧ cy ≤ 90 ∧ -180 ≤ cx ∧ cx ≤ 180 then some (cy, cx) else none
        else none
      .ok
        { areaSqMeters := round2 areaSqMeters
          areaAcres := round2 areaAcres
          width := width
          height := height
          pixelSizeX := round4 px
          pixelSizeY := round4 py
          units := ufw.2.1
          centroid := centroid
          warnings := ufw.2.2 }

/-- The usable-pixel-scale condition of the raster estimator, written out
from the spec's error-handling contract: a direct pixel-scale tag with
nonzero X and Y entries, or an affine model-transform tag with at least 16
elements whose first and sixth entries are nonzero. -/
def usablePixelInfo (pixelScale modelTransform : List ℝ) : Prop :=
  (pixelScale.getD 0 0 ≠ 0 ∧ pixelScale.getD 1 0 ≠ 0) ∨
    (16 ≤ modelTransform.length ∧ modelTransform.getD 0 0 ≠ 0 ∧ modelTransform.getD 5 0 ≠ 0)

/-! ## Orchestrator (src/app/api/field-area/route.ts lines 25-58) -/

/-- The success JSON of `POST /api/field-area`. -/
structure FieldAreaResponse where
  chosenAreaAcres : ℝ
  chosenAreaSqMeters : ℝ
  centroidLat : ℝ
  centroidLon : ℝ
  tiff : GeoTiffAreaResult
  polygon : PolygonFileResult

/-- The composition step of the `POST` handler (route.ts lines 25-58): the
raster estimator runs first and a throw from either estimator aborts the
request with that error (the surrounding try/catch returns the thrown
message verbatim); on success the polygon result supplies the chosen area
and centroid and both sub-results are embedded. -/
def fieldAreaPOST (tiffRes : Except String GeoTiffAreaResult)
    (polygonRes : Except String PolygonFileResult) : Except String FieldAreaResponse :=
  match tiffRes with
  | .error e => .error e
  | .ok t =>
    match polygonRes with
    | .error e => .error e
    | .ok p =>
      .ok
        { chosenAreaAcres := p.areaAcres
          chosenAreaSqMeters := p.areaSqMeters
          centroidLat := p.centroidLat
          centroidLon := p.centroidLon
          tiff := t
          polygon := p }

/-! ## Archive reader (polygonFile.ts lines 350-407)

Byte buffers are `List ℕ` (each entry `< 256` in any well-formed input).
`DataView` reads are bounds-checked and fail with the JS `RangeError`;
`Uint8Array.slice` clamps.  `inflateRawSync` is an external collaborator and
is passed in as an opaque function on byte lists. -/

deriving instance DecidableEq for Except

/-- Byte at index (only ever used in-bounds or behind a bounds check). -/
def byteAt (bytes : List ℕ) (i : ℕ) : ℕ := bytes.getD i 0

/-- Little-endian 16-bit value at `i` (unchecked). -/
def u16LEnat (bytes : List ℕ) (i : ℕ) : ℕ :=
  byteAt bytes i + 256 * byteAt bytes (i + 1)

/-- Little-endian 32-bit value at `i` (unchecked). -/
def u32LEnat (bytes : List ℕ) (i : ℕ) : ℕ :=
  byteAt bytes i + 256 * byteAt bytes (i + 1) + 65536 * byteAt bytes (i + 2) +
    16777216 * byteAt bytes (i + 3)

/-- `DataView.getUint16(i, true)` with the JS bounds check. -/
def getU16LE (bytes : List ℕ) (i : ℕ) : Except String ℕ :=
  if i + 2 ≤ bytes.length then .ok (u16LEnat bytes i) else .error ("RangeError")

/-- `DataView.getUint32(i, true)` with the JS bounds check. -/
def getU32LE (bytes : List ℕ) (i : ℕ) : Except String ℕ :=
  if i + 4 ≤ bytes.length then .ok (u32LEnat bytes i) else .error ("RangeError")

/-- `Uint8Array.slice(a, b)` (clamping). -/
def sliceBytes (bytes : List ℕ) (a b : ℕ) : List ℕ := (bytes.drop a).take (b - a)

/-- Model of `new TextDecoder("utf-8").decode(nameBytes).replace(/\\/g, "/")
.split("/").pop() || ""` followed by `toLowerCase()`: keep the final path
segment (resetting at `/` or `\`), byte-per-char (faithful for ASCII names),
lowercased. -/
def basenameLower (bs : List ℕ) : String :=
  String.mk
    (((bs.map fun b => Char.ofNat b).foldl
        (fun acc c => if c = '/' ∨ c = '\\' then [] else acc ++ [c]) []).map
      Char.toLower)

/-- JS `Map.prototype.set`: update in place when the key exists (preserving
insertion order), otherwise append. -/
def mapSet (m : List (String × List ℕ)) (k : String) (v : List ℕ) :
    List (String × List ℕ) :=
  if m.any (fun p => p.1 == k) then
    m.map fun p => if p.1 == k then (k, v) else p
  else m ++ [(k, v)]

/-- JS `Map.prototype.get`. -/
def mapGet (m : List (String × List ℕ)) (k : String) : Option (List ℕ) :=
  (m.find? fun p => p.1 == k).map (·.2)

/-- Number of entries of the map with the given key. -/
def countKey (m : List (String × List ℕ)) (k : String) : ℕ :=
  (m.filter fun p => p.1 == k).length

/-- The backward end-of-central-directory scan (polygonFile.ts lines 354-361):
from index `i` downward for `steps` indices, find the EOCD magic. -/
def eocdScan (bytes : List ℕ) : ℕ → ℕ → Option ℕ
  | _, 0 => none
  | i, steps + 1 =>
    if u32LEnat bytes i = 0x06054b50 then some i
    else
      match i with
      | 0 => none
      | j + 1 => eocdScan bytes j steps

/-- Locate the EOCD record: scan from `length - 22` down to
`max 0 (length - 65557)` (all reads of the scan are in bounds). -/
def findEOCD (bytes : List ℕ) : Option ℕ :=
  if 22 ≤ bytes.length then
    eocdScan bytes (bytes.length - 22) (bytes.length - 22 - (bytes.length - 65557) + 1)
  else none

/-- The decode of one central-directory entry of `parseZipEntries`
(polygonFile.ts lines 370-403): what the loop body does at `ptr`. -/
inductive ZipAction where
  | fail (e : String)
  | stop
  | skip (next : ℕ)
  | store (name : String) (payload : List ℕ) (next : ℕ)

/-- Decode the central-directory entry at `ptr` (polygonFile.ts lines
370-400): a non-matching central signature breaks the walk (`stop`); a
non-matching local header signature or an unsupported compression method
skips the member; stored (0) and deflated (8) members are stored under
their lowercased basename.  Reads mirror the `DataView` accesses in source
order; any out-of-range read is the JS `RangeError` (`fail`). -/
def zipEntryAction (inflate : List ℕ → List ℕ) (bytes : List ℕ) (ptr : ℕ) : ZipAction :=
  match getU32LE bytes ptr with
  | .error e => .fail e
  | .ok sig =>
    if sig ≠ 0x02014b50 then .stop
    else
      match getU16LE bytes (ptr + 10) with
      | .error e => .fail e
      | .ok compression =>
        match getU32LE bytes (ptr + 20) with
        | .error e => .fail e
        | .ok compressedSize =>
          match getU16LE bytes (ptr + 28) with
          | .error e => .fail e
          | .ok fileNameLen =>
            match getU16LE bytes (ptr + 30) with
            | .error e => .fail e
            | .ok extraLen =>
              match getU16LE bytes (ptr + 32) with
              | .error e => .fail e
              | .ok commentLen =>
                match getU32LE bytes (ptr + 42) with
                | .error e => .fail e
                | .ok localHeaderOffset =>
                  let name :=
                    basenameLower (sliceBytes bytes (ptr + 46) (ptr + 46 + fileNameLen))
                  let next := ptr + 46 + fileNameLen + extraLen + commentLen
                  match getU32LE bytes localHeaderOffset with
                  | .error e => .fail e
                  | .ok localSig =>
                    if localSig ≠ 0x04034b50 then .skip next
                    else
                      match getU16LE bytes (localHeaderOffset + 26) with
                      | .error e => .fail e
                      | .ok localNameLen =>
                        match getU16LE bytes (localHeaderOffset + 28) with
                        | .error e => .fail e
                        | .ok localExtraLen =>
                          let dataStart := localHeaderOffset + 30 + localNameLen + localExtraLen
                          let compData :=
                            sliceBytes bytes dataStart (dataStart + compressedSize)
                          if compression = 0 then .store name compData next
                          else if compression = 8 then .store name (inflate compData) next
                          else .skip next

/-- The central-directory walk of `parseZipEntries` (polygonFile.ts lines
369-404), iterated `totalEntries` times from `ptr`, threading the member
map; a member is stored only when its lowercased basename is nonempty
(`if (name) files.set(...)`). -/
def zipLoop (inflate : List ℕ → List ℕ) (bytes : List ℕ) :
    ℕ → ℕ → List (String × List ℕ) → Except String (List (String × List ℕ))
  | 0, _, files => .ok files
  | n + 1, ptr, files =>
    match zipEntryAction inflate bytes ptr with
    | .fail e => .error e
    | .stop => .ok files
    | .skip next => zipLoop inflate bytes n next files
    | .store name payload next =>
      zipLoop inflate bytes n next
        (if name = String.mk [] then files else mapSet files name payload)

/-- `parseZipEntries` (polygonFile.ts lines 350-407). -/
def parseZipEntries (inflate : List ℕ → List ℕ) (bytes : List ℕ) :
    Except String (List (String × List ℕ)) :=
  match findEOCD bytes with
  | none => .error ("Invalid ZIP file.")
  | some eocd =>
    match getU32LE bytes (eocd + 16) with
    | .error e => .error e
    | .ok cdOffset =>
      match getU16LE bytes (eocd + 10) with
      | .error e => .error e
      | .ok totalEntries => zipLoop inflate bytes totalEntries cdOffset []

/-- Specification-side companion of `zipLoop`: the ordered list of
`(name, payload)` pairs the walk stores, in central-directory order, with
the same control flow and failure behaviour as `zipLoop`. -/
def zipMembersLoop (inflate : List ℕ → List ℕ) (bytes : List ℕ) :
    ℕ → ℕ → Except String (List (String × List ℕ))
  | 0, _ => .ok []
  | n + 1, ptr =>
    match zipEntryAction inflate bytes ptr with
    | .fail e => .error e
    | .stop => .ok []
    | .skip next => zipMembersLoop inflate bytes n next
    | .store name payload next =>
      (zipMembersLoop inflate bytes n next).map fun ms =>
        if name = String.mk [] then ms else (name, payload) :: ms

/-- The member sequence of an archive, in central-directory order. -/
def zipMembers (inflate : List ℕ → List ℕ) (bytes : List ℕ) :
    Except String (List (String × List ℕ)) :=
  match findEOCD bytes with
  | none => .error ("Invalid ZIP file.")
  | some eocd =>
    match getU32LE bytes (eocd + 16) with
    | .error e => .error e
    | .ok cdOffset =>
      match getU16LE bytes (eocd + 10) with
      | .error e => .error e
      | .ok totalEntries => zipMembersLoop inflate bytes totalEntries cdOffset

/-! ## Shapefile reader (polygonFile.ts lines 235-280)

Record offsets are JS numbers that can move backward (a negative declared
content length), so offsets are `ℤ` and the `while` loop gets fuel; running
out of fuel models the JS loop never terminating. -/

/-- Byte at a signed index (negative indices never occur in-bounds). -/
def byteAtZ (bytes : List ℕ) (i : ℤ) : ℕ :=
  if 0 ≤ i then byteAt bytes i.toNat else 0

/-- Two's-complement reinterpretation of an unsigned 32-bit value
(`DataView.getInt32`). -/
def asI32 (n : ℕ) : ℤ := if n < 2147483648 then (n : ℤ) else (n : ℤ) - 4294967296

/-- `DataView.getInt32(i, false)` with the JS bounds check. -/
def getI32BE (bytes : List ℕ) (i : ℤ) : Except String ℤ :=
  if 0 ≤ i ∧ i + 4 ≤ bytes.length then
    .ok (asI32 (16777216 * byteAtZ bytes i + 65536 * byteAtZ bytes (i + 1) +
          256 * byteAtZ bytes (i + 2) + byteAtZ bytes (i + 3)))
  else .error ("RangeError")

/-- `DataView.getInt32(i, true)` with the JS bounds check. -/
def getI32LE (bytes : List ℕ) (i : ℤ) : Except String ℤ :=
  if 0 ≤ i ∧ i + 4 ≤ bytes.length then
    .ok (asI32 (byteAtZ bytes i + 256 * byteAtZ bytes (i + 1) +
          65536 * byteAtZ bytes (i + 2) + 16777216 * byteAtZ bytes (i + 3)))
  else .error ("RangeError")

/-- Little-endian 64-bit value at a signed index (unchecked). -/
def u64LEatZ (bytes : List ℕ) (i : ℤ) : ℕ :=
  byteAtZ bytes i + 256 * byteAtZ bytes (i + 1) + 65536 * byteAtZ bytes (i + 2) +
    16777216 * byteAtZ bytes (i + 3) + 4294967296 * byteAtZ bytes (i + 4) +
    1099511627776 * byteAtZ bytes (i + 5) + 281474976710656 * byteAtZ bytes (i + 6) +
    72057594037927936 * byteAtZ bytes (i + 7)

/-- IEEE-754 binary64 decoding of a 64-bit pattern into the real it denotes
(`NaN`/`±∞` fall outside the real model and are mapped to 0; they never
arise on the inputs of interest). -/
noncomputable def f64FromBits (b : ℕ) : ℝ :=
  let sign : ℝ := if b / 9223372036854775808 % 2 = 1 then -1 else 1
  let ex := b / 4503599627370496 % 2048
  let mant := b % 4503599627370496
  if ex = 0 then sign * (mant : ℝ) * (2 : ℝ) ^ (-1074 : ℤ)
  else if ex = 2047 then 0
  else sign * ((4503599627370496 + mant : ℕ) : ℝ) * (2 : ℝ) ^ ((ex : ℤ) - 1075)

/-- `DataView.getFloat64(i, true)` with the JS bounds check. -/
noncomputable def getF64LE (bytes : List ℕ) (i : ℤ) : Except String ℝ :=
  if 0 ≤ i ∧ i + 8 ≤ bytes.length then .ok (f64FromBits (u64LEatZ bytes i))
  else .error ("RangeError")

/-- The per-part point loop of `parseShpRings` (lines 264-271): read the
points `start ≤ i < endI` from the flat point array at `pointsStart`. -/
noncomputable def shpReadRing (bytes : List ℕ) (pointsStart start endI : ℤ) :
    Except String (List XY) :=
  (List.range (endI - start).toNat).mapM fun j =>
    match getF64LE bytes (pointsStart + (start + j) * 16) with
    | .error e => .error e
    | .ok x =>
      match getF64LE bytes (pointsStart + (start + j) * 16 + 8) with
      | .error e => .error e
      | .ok y => .ok (⟨x, y⟩ : XY)

/-- The polygon-record decomposition of `parseShpRings` (lines 252-273):
read `numParts`/`numPoints`, the part-index table, then one ring per part,
keeping only rings of at least 3 points. -/
noncomputable def shpRecordRings (bytes : List ℕ) (contentStart : ℤ) :
    Except String (List (List XY)) :=
  match getI32LE bytes (contentStart + 36) with
  | .error e => .error e
  | .ok numParts =>
    match getI32LE bytes (contentStart + 40) with
    | .error e => .error e
    | .ok numPoints =>
      let partsStart := contentStart + 44
      let pointsStart := partsStart + numParts * 4
      match (List.range numParts.toNat).mapM
          (fun p => getI32LE bytes (partsStart + (p : ℤ) * 4)) with
      | .error e => .error e
      | .ok parts =>
        match (List.range numParts.toNat).mapM
            (fun p =>
              let start := parts.getD p 0
              let endI := if (p : ℤ) + 1 < numParts then parts.getD (p + 1) 0 else numPoints
              shpReadRing bytes pointsStart start endI) with
        | .error e => .error e
        | .ok rings => .ok (rings.filter fun r => 3 ≤ r.length)

/-- The record `while` loop of `parseShpRings` (lines 244-277). -/
noncomputable def shpLoop (bytes : List ℕ) :
    ℕ → ℤ → List (List XY) → Except String (List (List XY))
  | 0, _, _ => .error ("shp record loop did not terminate")
  | fuel + 1, offset, rings =>
    if (bytes.length : ℤ) < offset + 8 then .ok rings
    else
      match getI32BE bytes (offset + 4) with
      | .error e => .error e
      | .ok contentLengthWords =>
        let contentBytes := contentLengthWords * 2
        let contentStart := offset + 8
        if (bytes.length : ℤ) < contentStart + contentBytes then .ok rings
        else
          match getI32LE bytes contentStart with
          | .error e => .error e
          | .ok shapeType =>
            if shapeType = 5 ∨ shapeType = 15 ∨ shapeType = 25 then
              match shpRecordRings bytes contentStart with
              | .error e => .error e
              | .ok newRings =>
                shpLoop bytes fuel (contentStart + contentBytes) (rings ++ newRings)
            else shpLoop bytes fuel (contentStart + contentBytes) rings

/-- `parseShpRings` (polygonFile.ts lines 235-280). -/
noncomputable def parseShpRings (bytes : List ℕ) : Except String (List (List XY)) :=
  if bytes.length < 100 then .error ("Invalid .shp file.")
  else
    match getI32BE bytes 0 with
    | .error e => .error e
    | .ok fileCode =>
      if fileCode ≠ 9994 then .error ("Invalid shapefile header.")
      else shpLoop bytes (bytes.length + 1) 100 []

/-! ## GeoJSON parser (polygonFile.ts lines 174-213)

`JSON.parse` is a JS built-in; its output is modelled by the `Json` value
tree below, with numeric leaves already real numbers.  Coercions the source
inherits from JS `Number()` on non-numeric coordinate leaves (`null → 0`,
booleans) are mirrored; string-to-number coercion and `NaN` propagation
have no real counterpart and such leaves drop the point — no claim's input
contains them. -/

/-- A parsed JSON document. -/
inductive Json where
  | null
  | bool (b : Bool)
  | num (x : ℝ)
  | str (s : String)
  | arr (elts : List Json)
  | obj (fields : List (String × Json))

/-- JS property access `j[k]` on a parsed document (objects from
`JSON.parse` have unique keys). -/
def jGet (j : Json) (k : String) : Option Json :=
  match j with
  | .obj fields => (fields.find? fun p => p.1 == k).map (·.2)
  | _ => none

/-- JS `Number()` on a JSON leaf (see the section comment). -/
def jsNumber? (j : Json) : Option ℝ :=
  match j with
  | .num x => some x
  | .null => some 0
  | .bool b => some (if b then 1 else 0)
  | _ => none

/-- A coordinate pair: an array of length ≥ 2 with numeric head entries
(`if (!Array.isArray(pair) || pair.length < 2) continue`). -/
def pairXY? (j : Json) : Option XY :=
  match j with
  | .arr (a :: b :: _) =>
    match jsNumber? a, jsNumber? b with
    | some x, some y => some ⟨x, y⟩
    | _, _ => none
  | _ => none

/-- One ring of a `Polygon`/`MultiPolygon` coordinates array: collect the
parseable pairs, keep the ring when it has at least 3 points. -/
def ringPts? (j : Json) : Option (List XY) :=
  match j with
  | .arr pairs =>
    let pts := pairs.filterMap pairXY?
    if 3 ≤ pts.length then some pts else none
  | _ => none

/-- `handleGeom` (polygonFile.ts lines 178-202): rings contributed by one
geometry object. -/
def handleGeom (geom : Json) : List (List XY) :=
  match jGet geom ("type") with
  | some (.str t) =>
    if t = ("Polygon" : String) then
      match jGet geom ("coordinates") with
      | some (.arr rings) => rings.filterMap ringPts?
      | _ => []
    else if t = ("MultiPolygon" : String) then
      match jGet geom ("coordinates") with
      | some (.arr polys) =>
        polys.flatMap fun poly =>
          match poly with
          | .arr rings => rings.filterMap ringPts?
          | _ => []
      | _ => []
    else []
  | _ => []

/-- The dispatch of `parseGeoJsonText` (lines 204-210): `FeatureCollection`
→ every feature's geometry, `Feature` → its geometry, otherwise the
document itself as a geometry. -/
def collectGeoJsonRings (parsed : Json) : List (List XY) :=
  match jGet parsed ("type") with
  | some (.str t) =>
    if t = ("FeatureCollection" : String) then
      match jGet parsed ("features") with
      | some (.arr features) =>
        features.flatMap fun f => handleGeom ((jGet f ("geometry")).getD .null)
      | _ => handleGeom parsed
    else if t = ("Feature" : String) then handleGeom ((jGet parsed ("geometry")).getD .null)
    else handleGeom parsed
  | _ => handleGeom parsed

/-- `parseGeoJsonText` (polygonFile.ts lines 174-213), from the parsed
document. -/
noncomputable def parseGeoJsonText (parsed : Json) : Except String PolygonFileResult :=
  combineRings (collectGeoJsonRings parsed) .geojson ⟨none, none⟩

/-! ## Concrete inputs used by witnesses and counterexamples -/

/-- The linear-unit factor exactly as the specification words it: 0.3048 for
geo-key code 9002, 0.3048006096012192 for 9003, and 1 for 9001, an absent
code, or any unrecognized code. -/
noncomputable def specUnitFactor (code : Option ℕ) : ℝ :=
  if code = some 9002 then 0.3048
  else if code = some 9003 then 0.3048006096012192
  else 1

/-- A 16-element affine model-transform tag value with nonzero first and
sixth entries. -/
noncomputable def sampleTransform : List ℝ :=
  [2, 0, 0, 0, 0, 3, 0, 0, 0, 0, 0, 0, 0, 0, 0, 0]

/-- A projected-coordinate (UTM-magnitude) triangle ring. -/
noncomputable def projectedRing : List XY :=
  [⟨500000, 4000000⟩, ⟨500100, 4000000⟩, ⟨500100, 4000100⟩]

/-- A geographic rectangle one billionth of a degree on each side: its
geodesic area is positive but far below 0.005 square meters. -/
noncomputable def tinyRing : List XY :=
  [⟨0, 0⟩, ⟨1/1000000000, 0⟩, ⟨1/1000000000, 1/1000000000⟩, ⟨0, 1/1000000000⟩]

/-- A square of side 1000000 in projected native units. -/
noncomputable def bigSquareRing : List XY :=
  [⟨0, 0⟩, ⟨1000000, 0⟩, ⟨1000000, 1000000⟩, ⟨0, 1000000⟩]

/-- A degenerate projected ring of three collinear points (out of the
geographic coordinate range, with zero planar area). -/
noncomputable def projCollinearRing : List XY := [⟨1000, 1000⟩, ⟨2000, 2000⟩, ⟨3000, 3000⟩]

/-- A degenerate ring of three collinear equator points. -/
noncomputable def collinearEquatorRing : List XY := [⟨0, 0⟩, ⟨1, 0⟩, ⟨2, 0⟩]

/-- A shapefile whose 100-byte header (file code 9994) is followed by only
4 stray bytes: the first record's 8-byte header does not fit. -/
def shpHeaderTruncated : List ℕ :=
  [0, 0, 0x27, 0x0A] ++ List.replicate 96 0 ++ [0, 0, 0, 0]

/-- A shapefile whose single record header declares 50 words (100 bytes) of
content, but the buffer ends right after the record header. -/
def shpLyingRecord : List ℕ :=
  [0, 0, 0x27, 0x0A] ++ List.replicate 96 0 ++ [0, 0, 0, 0, 0, 0, 0, 50]

/-- An archive whose only member's central-directory entry points at a
local header with a wrong signature (the first four bytes are zeros), with
a valid end-of-central-directory record. -/
def zipBufC3 : List ℕ :=
  [0, 0, 0, 0, 80, 75, 1, 2, 0, 0, 0, 0, 0, 0, 0, 0, 0, 0, 0, 0, 0, 0, 0, 0, 0, 0, 0, 0, 0, 0, 0, 0, 1, 0, 0, 0, 0, 0, 0, 0, 0, 0, 0, 0, 0, 0, 0, 0, 0, 0, 97, 80, 75, 5, 6, 0, 0, 0, 0, 0, 0, 1, 0, 0, 0, 0, 0, 4, 0, 0, 0, 0, 0]

/-- A lone central-directory entry with no end-of-central-directory record
anywhere in the buffer; its local-header pointer aims at its own (wrong)
signature. -/
def zipNoEocd : List ℕ :=
  [80, 75, 1, 2, 0, 0, 0, 0, 0, 0, 0, 0, 0, 0, 0, 0, 0, 0, 0, 0, 0, 0, 0, 0, 0, 0, 0, 0, 1, 0, 0, 0, 0, 0, 0, 0, 0, 0, 0, 0, 0, 0, 0, 0, 0, 0, 97]

/-- An archive with two stored members both named `a.txt` (payloads
`[1,2,3]` then `[9,9]` in central-directory order). -/
def zipDup : List ℕ :=
  [80, 75, 3, 4, 0, 0, 0, 0, 0, 0, 0, 0, 0, 0, 0, 0, 0, 0, 0, 0, 0, 0, 0, 0, 0, 0, 0, 0, 0, 0, 1, 2, 3, 80, 75, 3, 4, 0, 0, 0, 0, 0, 0, 0, 0, 0, 0, 0, 0, 0, 0, 0, 0, 0, 0, 0, 0, 0, 0, 0, 0, 0, 0, 9, 9, 80, 75, 1, 2, 0, 0, 0, 0, 0, 0, 0, 0, 0, 0, 0, 0, 0, 0, 0, 0, 3, 0, 0, 0, 0, 0, 0, 0, 5, 0, 0, 0, 0, 0, 0, 0, 0, 0, 0, 0, 0, 0, 0, 0, 0, 0, 97, 46, 116, 120, 116, 80, 75, 1, 2, 0, 0, 0, 0, 0, 0, 0, 0, 0, 0, 0, 0, 0, 0, 0, 0, 2, 0, 0, 0, 0, 0, 0, 0, 5, 0, 0, 0, 0, 0, 0, 0, 0, 0, 0, 0, 0, 0, 33, 0, 0, 0, 97, 46, 116, 120, 116, 80, 75, 5, 6, 0, 0, 0, 0, 0, 0, 2, 0, 0, 0, 0, 0, 65, 0, 0, 0, 0, 0]

/-- Clockwise 20-degree-wide rectangle up to latitude 30. -/
noncomputable def ceRingA : List XY := [⟨0, 0⟩, ⟨20, 0⟩, ⟨20, 30⟩, ⟨0, 30⟩]

/-- The 10-degree-wide rectangle up to latitude 30, traversed in the
opposite orientation to `ceRingA`. -/
noncomputable def ceRingB : List XY := [⟨0, 30⟩, ⟨10, 30⟩, ⟨10, 0⟩, ⟨0, 0⟩]

/-- The 10-degree-wide rectangle with the same orientation as `ceRingA`. -/
noncomputable def witRingB : List XY := [⟨0, 0⟩, ⟨10, 0⟩, ⟨10, 30⟩, ⟨0, 30⟩]

/-- A sample raster sub-result. -/
noncomputable def sampleTiffResult : GeoTiffAreaResult :=
  { areaSqMeters := 25, areaAcres := 1, width := 5, height := 5, pixelSizeX := 1,
    pixelSizeY := 1, units := "meters", centroid := none, warnings := [] }

/-- A sample polygon sub-result. -/
noncomputable def samplePolygonResult : PolygonFileResult :=
  { areaSqMeters := 30, areaAcres := 2, centroidLat := 45, centroidLon := -120,
    ringCount := 1, pointCount := 4, source := .geojson }

/-- The GeoJSON document of a `FeatureCollection` with two single-ring
`Polygon` features (used to state the two-polygon scenario). -/
def twoPolygonDoc (r1 r2 : List XY) : Json :=
  .obj
    [(("type" : String), .str ("FeatureCollection")),
     (("features" : String),
       .arr
         ([r1, r2].map fun r =>
           .obj
             [(("type" : String), .str ("Feature")),
              (("geometry" : String),
                .obj
                  [(("type" : String), .str ("Polygon")),
                   (("coordinates" : String),
                     .arr [.arr (r.map fun p => .arr [.num p.x, .num p.y])])])]))]

/-! # Lemmas and claim theorems -/

theorem jsRound_eq_of (x : ℝ) (n : ℤ) (h1 : (n : ℝ) ≤ x + 1/2) (h2 : x + 1/2 < n + 1) :
    jsRound x = n := by
  unfold jsRound
  exact Int.floor_eq_iff.mpr ⟨h1, by exact_mod_cast h2⟩

theorem round2_eq_of (x : ℝ) (n : ℤ) (h1 : (n : ℝ) ≤ x * 100 + 1/2)
    (h2 : x * 100 + 1/2 < n + 1) : round2 x = (n : ℝ) / 100 := by
  unfold round2
  rw [jsRound_eq_of (x * 100) n h1 h2]

theorem round6_eq_of (x : ℝ) (n : ℤ) (h1 : (n : ℝ) ≤ x * 1000000 + 1/2)
    (h2 : x * 1000000 + 1/2 < n + 1) : round6 x = (n : ℝ) / 1000000 := by
  unfold round6
  rw [jsRound_eq_of (x * 1000000) n h1 h2]

theorem round2_nonneg (x : ℝ) (hx : 0 ≤ x) : 0 ≤ round2 x := by
  unfold round2 jsRound
  have h : (0 : ℤ) ≤ ⌊x * 100 + 1/2⌋ := by
    apply Int.le_floor.mpr
    push_cast
    nlinarith
  have h2 : (0 : ℝ) ≤ (⌊x * 100 + 1/2⌋ : ℤ) := by exact_mod_cast h
  linarith

theorem geoEdgeSum_nil : geoEdgeSum [] = 0 := rfl

theorem geoEdgeSum_single (p : XY) : geoEdgeSum [p] = 0 := rfl

theorem geoEdgeSum_cons_cons (p q : XY) (rest : List XY) :
    geoEdgeSum (p :: q :: rest) = geoTerm p q + geoEdgeSum (q :: rest) := rfl

theorem geoTerm_self_zero (p q : XY) (hx : p.x = q.x) : geoTerm p q = 0 := by
  unfold geoTerm toRad
  rw [hx, sub_self]
  simp

theorem geoTerm_swap (p q : XY) : geoTerm q p = -geoTerm p q := by
  unfold geoTerm toRad
  ring

theorem geoEdgeSum_append (l : List XY) (a : XY) :
    geoEdgeSum (l ++ [a]) = geoEdgeSum l + (l.getLast?.elim 0 fun t => geoTerm t a) := by
  induction l with
  | nil => simp [geoEdgeSum]
  | cons x l ih =>
    cases l with
    | nil =>
      simp [geoEdgeSum_cons_cons, geoEdgeSum_single, geoEdgeSum_nil, List.getLast?_singleton]
    | cons y l' =>
      have h1 : geoEdgeSum (x :: y :: l' ++ [a]) = geoTerm x y + geoEdgeSum (y :: l' ++ [a]) :=
        geoEdgeSum_cons_cons x y (l' ++ [a])
      rw [h1, ih, geoEdgeSum_cons_cons, List.getLast?_cons_cons]
      ring

theorem geoEdgeSum_reverse (l : List XY) : geoEdgeSum l.reverse = -geoEdgeSum l := by
  induction l with
  | nil => simp [geoEdgeSum_nil]
  | cons p rest ih =>
    rw [List.reverse_cons, geoEdgeSum_append, ih, List.getLast?_reverse]
    cases rest with
    | nil => simp [geoEdgeSum_nil, geoEdgeSum_single]
    | cons q rest' =>
      rw [geoEdgeSum_cons_cons]
      simp only [List.head?_cons, Option.elim_some]
      rw [geoTerm_swap]
      ring

theorem closeRingXY_nil : closeRingXY [] = [] := rfl

theorem closeRingXY_of_closed (l : List XY) (h t : XY) (hh : l.head? = some h)
    (ht : l.getLast? = some t) (hc : h.x = t.x ∧ h.y = t.y) : closeRingXY l = l := by
  unfold closeRingXY
  rw [hh, ht]
  simp [hc]

theorem closeRingXY_of_open (l : List XY) (h t : XY) (hh : l.head? = some h)
    (ht : l.getLast? = some t) (hc : ¬(h.x = t.x ∧ h.y = t.y)) :
    closeRingXY l = l ++ [h] := by
  unfold closeRingXY
  rw [hh, ht]
  simp [hc]

theorem geoEdgeSum_closeRingXY (l : List XY) (h : XY) (hh : l.head? = some h) :
    geoEdgeSum (closeRingXY l) = geoEdgeSum (l ++ [h]) := by
  have hne : l ≠ [] := by
    intro e
    rw [e] at hh
    exact Option.noConfusion hh
  obtain ⟨t, ht⟩ : ∃ t, l.getLast? = some t := by
    cases hl : l.getLast? with
    | none => exact absurd (List.getLast?_eq_none_iff.mp hl) hne
    | some t => exact ⟨t, rfl⟩
  by_cases hc : h.x = t.x ∧ h.y = t.y
  · rw [closeRingXY_of_closed l h t hh ht hc, geoEdgeSum_append, ht]
    simp only [Option.elim_some]
    rw [geoTerm_self_zero t h hc.1.symm, add_zero]
  · rw [closeRingXY_of_open l h t hh ht hc]

theorem geoEdgeSum_closeRingXY_reverse (l : List XY) :
    geoEdgeSum (closeRingXY l.reverse) = -geoEdgeSum (closeRingXY l) := by
  cases l with
  | nil => simp [closeRingXY_nil, geoEdgeSum_nil]
  | cons p rest =>
    set l := p :: rest with hl
    have hh : l.head? = some p := rfl
    have hne : l ≠ [] := by simp [hl]
    obtain ⟨t, ht⟩ : ∃ t, l.getLast? = some t := by
      cases hgl : l.getLast? with
      | none => exact absurd (List.getLast?_eq_none_iff.mp hgl) hne
      | some t => exact ⟨t, rfl⟩
    have hrh : l.reverse.head? = some t := by rw [List.head?_reverse, ht]
    have hrt : l.reverse.getLast? = some p := by rw [List.getLast?_reverse, hh]
    by_cases hc : p.x = t.x ∧ p.y = t.y
    · rw [closeRingXY_of_closed l p t hh ht hc,
        closeRingXY_of_closed l.reverse t p hrh hrt ⟨hc.1.symm, hc.2.symm⟩,
        geoEdgeSum_reverse]
    · have hc' : ¬(t.x = p.x ∧ t.y = p.y) := fun w => hc ⟨w.1.symm, w.2.symm⟩
      rw [closeRingXY_of_open l p t hh ht hc,
        closeRingXY_of_open l.reverse t p hrh hrt hc',
        geoEdgeSum_append, geoEdgeSum_append, geoEdgeSum_reverse, hrt, ht]
      simp only [Option.elim_some]
      rw [geoTerm_swap p t]
      ring

theorem geoEdgeSum_closeRingXY_rotate_one (a : XY) (xs : List XY) :
    geoEdgeSum (closeRingXY (xs ++ [a])) = geoEdgeSum (closeRingXY (a :: xs)) := by
  cases xs with
  | nil =>
    have h1 : closeRingXY [a] = [a] :=
      closeRingXY_of_closed [a] a a rfl rfl ⟨rfl, rfl⟩
    simp [h1, geoEdgeSum_single]
  | cons b xs' =>
    have hL : ((b :: xs') ++ [a]).head? = some b := rfl
    have hR : (a :: b :: xs').head? = some a := rfl
    rw [geoEdgeSum_closeRingXY _ b hL, geoEdgeSum_closeRingXY _ a hR, geoEdgeSum_append]
    have hlast : ((b :: xs') ++ [a]).getLast? = some a := by
      rw [List.getLast?_concat]
    rw [hlast]
    simp only [Option.elim_some]
    have h2 : ((a :: b :: xs') ++ [a] : List XY) = a :: b :: (xs' ++ [a]) := by simp
    rw [h2, geoEdgeSum_cons_cons a b (xs' ++ [a])]
    exact add_comm _ _

theorem geoEdgeSum_closeRingXY_rotate (l : List XY) (k : ℕ) :
    geoEdgeSum (closeRingXY (l.rotate k)) = geoEdgeSum (closeRingXY l) := by
  induction k generalizing l with
  | zero => rw [List.rotate_zero]
  | succ k ih =>
    cases l with
    | nil => rw [List.rotate_nil]
    | cons a xs => rw [List.rotate_cons_succ, ih (xs ++ [a]),
        geoEdgeSum_closeRingXY_rotate_one]

/-- **C7.** For every ring of points, the signed geodesic area computed by
`ringGeodesicSignedAreaSqMeters` flips sign (with unchanged absolute value)
when the ring's point order is reversed, and is unchanged when the ring's
starting point is cyclically rotated.  This holds for all rings, in
particular for the simple closed rings of the claim. -/
theorem geodesic_area_reverse_and_rotate (ring : List XY) (k : ℕ) :
    ringGeodesicSignedAreaSqMeters ring.reverse = -ringGeodesicSignedAreaSqMeters ring ∧
      |ringGeodesicSignedAreaSqMeters ring.reverse| = |ringGeodesicSignedAreaSqMeters ring| ∧
      ringGeodesicSignedAreaSqMeters (ring.rotate k) = ringGeodesicSignedAreaSqMeters ring := by
  unfold ringGeodesicSignedAreaSqMeters
  refine ⟨?_, ?_, ?_⟩
  · rw [geoEdgeSum_closeRingXY_reverse]
    ring
  · rw [geoEdgeSum_closeRingXY_reverse]
    rw [show -geoEdgeSum (closeRingXY ring) * EARTH_RADIUS_METERS * EARTH_RADIUS_METERS / 2 =
      -(geoEdgeSum (closeRingXY ring) * EARTH_RADIUS_METERS * EARTH_RADIUS_METERS / 2) by ring]
    exact abs_neg _
  · rw [geoEdgeSum_closeRingXY_rotate]

/-- **C8.** For the `/api/field-area` `POST` composition: a failing raster
estimator aborts the request with its message verbatim; with a successful
raster result, a failing polygon estimator aborts with its message
verbatim; when both succeed, the chosen acreage, square meters and centroid
are exactly the polygon result's fields and both sub-results are embedded
in full. -/
theorem fieldAreaPOST_composition (t : Except String GeoTiffAreaResult)
    (p : Except String PolygonFileResult) :
    (∀ e, t = .error e → fieldAreaPOST t p = .error e) ∧
      (∀ tr e, t = .ok tr → p = .error e → fieldAreaPOST t p = .error e) ∧
      (∀ tr pr, t = .ok tr → p = .ok pr →
        fieldAreaPOST t p =
          .ok
            { chosenAreaAcres := pr.areaAcres
              chosenAreaSqMeters := pr.areaSqMeters
              centroidLat := pr.centroidLat
              centroidLon := pr.centroidLon
              tiff := tr
              polygon := pr }) := by
  refine ⟨?_, ?_, ?_⟩
  · intro e he
    subst he
    rfl
  · intro tr e ht hp
    subst ht
    subst hp
    rfl
  · intro tr pr ht hp
    subst ht
    subst hp
    rfl

theorem fieldAreaPOST_composition_witness :
    fieldAreaPOST (.error ("tiff failed")) (.ok samplePolygonResult) =
        .error ("tiff failed") ∧
      fieldAreaPOST (.ok sampleTiffResult) (.error ("polygon failed")) =
        .error ("polygon failed") ∧
      fieldAreaPOST (.ok sampleTiffResult) (.ok samplePolygonResult) =
        .ok
          { chosenAreaAcres := samplePolygonResult.areaAcres
            chosenAreaSqMeters := samplePolygonResult.areaSqMeters
            centroidLat := samplePolygonResult.centroidLat
            centroidLon := samplePolygonResult.centroidLon
            tiff := sampleTiffResult
            polygon := samplePolygonResult } :=
  ⟨(fieldAreaPOST_composition _ _).1 _ rfl,
    (fieldAreaPOST_composition _ _).2.1 _ _ rfl rfl,
    (fieldAreaPOST_composition _ _).2.2 _ _ rfl rfl⟩

/-- **C6.** Whenever some ring point lies outside `[-180,180] × [-90,90]`
(so `combineRings` takes the projected branch) and no attribute-table
centroid was supplied, `combineRings` throws — on every control path — and
in particular never returns a result (with a fabricated centroid or
otherwise): the parse has no successful outcome. -/
theorem combineRings_projected_no_centroid_fails (rings : List (List XY))
    (source : PolygonSource) (options : CombineOptions)
    (hdbf : options.dbfLonLat = none)
    (hout : ∃ ring ∈ rings, ∃ p ∈ ring,
      p.x < -180 ∨ 180 < p.x ∨ p.y < -90 ∨ 90 < p.y) :
    (combineRings rings source options).toOption = none := by
  obtain ⟨ring, hr, p, hp, hcond⟩ := hout
  have hne : rings ≠ [] := by
    rintro rfl
    exact absurd hr (List.not_mem_nil _)
  have hempty : rings.isEmpty = false := by
    cases rings with
    | nil => exact absurd rfl hne
    | cons a l => rfl
  have hnl : ¬isLikelyLonLat rings := by
    intro h
    obtain ⟨h1, h2, h3, h4⟩ := h ring hr p hp
    rcases hcond with h5 | h5 | h5 | h5 <;> linarith
  unfold combineRings
  rw [hempty]
  simp only [Bool.false_eq_true, if_false, if_neg hnl]
  cases hu : unitToMeters options.prjText with
  | error e => rfl
  | ok u =>
    dsimp only
    by_cases hz : |(projAccum u rings).1| = 0
    · rw [if_pos hz]
      rfl
    · rw [if_neg hz, hdbf]
      rfl

theorem combineRings_projected_no_centroid_fails_witness :
    (combineRings [projectedRing] .shp ⟨none, none⟩).toOption = none := by
  apply combineRings_projected_no_centroid_fails
  · rfl
  · exact ⟨projectedRing, by simp, ⟨500000, 4000000⟩, by simp [projectedRing], by norm_num⟩

theorem geoTiffUnitFactor_fst (code : Option ℕ) :
    (geoTiffUnitFactor code).1 = specUnitFactor code := by
  unfold geoTiffUnitFactor specUnitFactor
  rcases code with _ | c
  · simp
  · by_cases h2 : c = 9002
    · subst h2
      simp
    · by_cases h3 : c = 9003
      · subst h3
        simp
      · dsimp only
        rw [if_neg h2, if_neg h3]
        rw [if_neg (show ¬(some c = some 9002) by simpa using h2)]
        rw [if_neg (show ¬(some c = some 9003) by simpa using h3)]
        by_cases h4 : c ≠ 0 ∧ c ≠ 9001
        · rw [if_pos h4]
        · rw [if_neg h4]

/-- **C2.** For every input the raster estimator accepts that carries a
direct pixel-scale tag `[sx, sy]` with positive entries and positive width
and height, the returned `areaSqMeters` is `w*h*(sx*u)*(sy*u)` rounded to 2
decimals and the returned `areaAcres` is the unrounded product divided by
4046.8564224, rounded to 2 decimals, where `u` is the linear-unit factor
the specification assigns to the geo-key code (0.3048 for 9002,
0.3048006096012192 for 9003, 1 otherwise). -/
theorem geotiff_area_formula (w h : ℕ) (sx sy : ℝ) (mt tp : List ℝ)
    (mtype code : Option ℕ) (hw : 0 < w) (hh : 0 < h) (hsx : 0 < sx) (hsy : 0 < sy) :
    (estimateAreaFromGeoTiff w h [sx, sy] mt tp mtype code).map
        (fun r => (r.areaSqMeters, r.areaAcres)) =
      .ok
        (round2 ((w : ℝ) * (h : ℝ) * (sx * specUnitFactor code) * (sy * specUnitFactor code)),
          round2 ((w : ℝ) * (h : ℝ) * (sx * specUnitFactor code) * (sy * specUnitFactor code) /
            4046.8564224)) := by
  have hwh : ¬(w = 0 ∨ h = 0) := by omega
  have habsx : |([sx, sy].getD 0 0 : ℝ)| = sx := by
    show |sx| = sx
    exact abs_of_pos hsx
  have habsy : |([sx, sy].getD 1 0 : ℝ)| = sy := by
    show |sy| = sy
    exact abs_of_pos hsy
  have hor : ¬(sx = 0 ∨ sy = 0) := by
    rintro (h0 | h0)
    · exact absurd h0 (ne_of_gt hsx)
    · exact absurd h0 (ne_of_gt hsy)
  have hna : ¬((sx = 0 ∨ sy = 0) ∧ 16 ≤ mt.length) := fun hc => hor hc.1
  unfold estimateAreaFromGeoTiff
  rw [if_neg hwh]
  dsimp only
  rw [habsx, habsy, if_neg hna, if_neg hna, if_neg hor]
  dsimp only [Except.map]
  rw [geoTiffUnitFactor_fst]
  have harea : (w : ℝ) * (h : ℝ) * (sx * specUnitFactor code * (sy * specUnitFactor code)) =
      (w : ℝ) * (h : ℝ) * (sx * specUnitFactor code) * (sy * specUnitFactor code) := by
    ring
  rw [harea]
  rfl

theorem geotiff_area_formula_witness :
    (estimateAreaFromGeoTiff 1 1 [1, 1] [] [] none (some 9002)).map
        (fun r => (r.areaSqMeters, r.areaAcres)) =
      .ok
        (round2 (((1 : ℕ) : ℝ) * ((1 : ℕ) : ℝ) * (1 * specUnitFactor (some 9002)) *
            (1 * specUnitFactor (some 9002))),
          round2 (((1 : ℕ) : ℝ) * ((1 : ℕ) : ℝ) * (1 * specUnitFactor (some 9002)) *
            (1 * specUnitFactor (some 9002)) / 4046.8564224)) :=
  geotiff_area_formula 1 1 1 1 [] [] none (some 9002) one_pos one_pos one_pos one_pos

/-- **C4 (amended).** On a structurally valid raster (positive width and
height), the estimator fails with the missing-pixel-scale error exactly
when no usable pixel-scale information is present, where usable means a
direct scale tag with nonzero X/Y entries or an affine transform tag with
at least **16** elements whose first and sixth entries are nonzero; when
the transform fallback is used, the reported pixel sizes are the absolute
values of the transform's first and sixth elements. -/
theorem geotiff_pixel_scale_error_iff (w h : ℕ) (scale mt tp : List ℝ)
    (mtype code : Option ℕ) (hw : 0 < w) (hh : 0 < h) :
    (estimateAreaFromGeoTiff w h scale mt tp mtype code =
        .error ("GeoTIFF missing pixel scale metadata.") ↔ ¬usablePixelInfo scale mt) ∧
      ((scale.getD 0 0 = 0 ∨ scale.getD 1 0 = 0) → 16 ≤ mt.length →
        ∀ r, estimateAreaFromGeoTiff w h scale mt tp mtype code = .ok r →
          r.pixelSizeX = round4 |mt.getD 0 0| ∧ r.pixelSizeY = round4 |mt.getD 5 0|) := by
  have hwh : ¬(w = 0 ∨ h = 0) := by omega
  unfold estimateAreaFromGeoTiff usablePixelInfo
  rw [if_neg hwh]
  dsimp only
  by_cases hA : scale.getD 0 0 = 0 ∨ scale.getD 1 0 = 0
  · by_cases hB : 16 ≤ mt.length
    · have hc : (|scale.getD 0 0| = 0 ∨ |scale.getD 1 0| = 0) ∧ 16 ≤ mt.length := by
        refine ⟨?_, hB⟩
        rcases hA with h0 | h0
        · exact Or.inl (by rw [h0, abs_zero])
        · exact Or.inr (by rw [h0, abs_zero])
      rw [if_pos hc, if_pos hc]
      by_cases hm : |mt.getD 0 0| = 0 ∨ |mt.getD 5 0| = 0
      · rw [if_pos hm]
        refine ⟨⟨fun _ => ?_, fun _ => rfl⟩, fun _ _ r hr => absurd hr (by simp)⟩
        rintro (⟨u1, u2⟩ | ⟨-, u1, u2⟩)
        · rcases hA with h0 | h0
          · exact u1 h0
          · exact u2 h0
        · rcases hm with h0 | h0
          · exact u1 (abs_eq_zero.mp h0)
          · exact u2 (abs_eq_zero.mp h0)
      · rw [if_neg hm]
        push_neg at hm
        have hm0 : mt.getD 0 0 ≠ 0 := fun h0 => hm.1 (by rw [h0, abs_zero])
        have hm5 : mt.getD 5 0 ≠ 0 := fun h0 => hm.2 (by rw [h0, abs_zero])
        refine ⟨⟨fun hcontra => absurd hcontra (by simp),
          fun hnu => absurd (Or.inr ⟨hB, hm0, hm5⟩) hnu⟩, fun _ _ r hr => ?_⟩
        cases hr
        exact ⟨rfl, rfl⟩
    · have hc : ¬((|scale.getD 0 0| = 0 ∨ |scale.getD 1 0| = 0) ∧ 16 ≤ mt.length) :=
        fun hcc => hB hcc.2
      rw [if_neg hc, if_neg hc]
      have hg : |scale.getD 0 0| = 0 ∨ |scale.getD 1 0| = 0 := by
        rcases hA with h0 | h0
        · exact Or.inl (by rw [h0, abs_zero])
        · exact Or.inr (by rw [h0, abs_zero])
      rw [if_pos hg]
      refine ⟨⟨fun _ => ?_, fun _ => rfl⟩, fun _ hB' _ _ => absurd hB' hB⟩
      rintro (⟨u1, u2⟩ | ⟨u3, -⟩)
      · rcases hA with h0 | h0
        · exact u1 h0
        · exact u2 h0
      · exact hB u3
  · push_neg at hA
    have hc : ¬((|scale.getD 0 0| = 0 ∨ |scale.getD 1 0| = 0) ∧ 16 ≤ mt.length) := by
      rintro ⟨h0 | h0, -⟩
      · exact hA.1 (abs_eq_zero.mp h0)
      · exact hA.2 (abs_eq_zero.mp h0)
    rw [if_neg hc, if_neg hc]
    have hg : ¬(|scale.getD 0 0| = 0 ∨ |scale.getD 1 0| = 0) := by
      rintro (h0 | h0)
      · exact hA.1 (abs_eq_zero.mp h0)
      · exact hA.2 (abs_eq_zero.mp h0)
    rw [if_neg hg]
    refine ⟨⟨fun hcontra => absurd hcontra (by simp), fun hnu => absurd (Or.inl hA) hnu⟩,
      fun hA' _ _ _ => ?_⟩
    rcases hA' with h0 | h0
    · exact absurd h0 hA.1
    · exact absurd h0 hA.2

/-- **C4 (counterexample).** A structurally valid raster with no pixel-scale
tag and a 6-element model-transform tag (nonzero entries) is rejected by
the code with the missing-pixel-scale error, although the claim calls a
transform of 6 or more elements usable. -/
theorem geotiff_six_element_transform_rejected :
    estimateAreaFromGeoTiff 1 1 [] [1, 1, 1, 1, 1, 1] [] none none =
      .error ("GeoTIFF missing pixel scale metadata.") := by
  have h1 : ¬((1 : ℕ) = 0 ∨ (1 : ℕ) = 0) := by norm_num
  have hc : ¬((|(([] : List ℝ).getD 0 0 : ℝ)| = 0 ∨ |(([] : List ℝ).getD 1 0 : ℝ)| = 0) ∧
      16 ≤ ([1, 1, 1, 1, 1, 1] : List ℝ).length) := by
    rintro ⟨-, hlen⟩
    norm_num at hlen
  have hg : |(([] : List ℝ).getD 0 0 : ℝ)| = 0 ∨ |(([] : List ℝ).getD 1 0 : ℝ)| = 0 := by
    left
    norm_num [List.getD]
  unfold estimateAreaFromGeoTiff
  rw [if_neg h1]
  dsimp only
  rw [if_neg hc, if_neg hc, if_pos hg]

theorem geotiff_pixel_scale_error_iff_witness :
    estimateAreaFromGeoTiff 1 1 [] sampleTransform [] none none ≠
      .error ("GeoTIFF missing pixel scale metadata.") := by
  have h := (geotiff_pixel_scale_error_iff 1 1 [] sampleTransform [] none none
    one_pos one_pos).1
  intro hc
  refine (h.mp hc) (Or.inr ⟨?_, ?_, ?_⟩)
  · norm_num [sampleTransform]
  · norm_num [sampleTransform, List.getD]
  · norm_num [sampleTransform, List.getD]

theorem planarEdgeSum_single (p : XY) : planarEdgeSum [p] = 0 := rfl

theorem planarEdgeSum_cons_cons (a b : XY) (rest : List XY) :
    planarEdgeSum (a :: b :: rest) = (a.x * b.y - b.x * a.y) + planarEdgeSum (b :: rest) := rfl

theorem geoAccum_single (r : List XY) (h : ¬r.length < 3) :
    geoAccum [r] =
      (ringGeodesicSignedAreaSqMeters r,
        (ringPlanarCentroid r).x * |ringGeodesicSignedAreaSqMeters r|,
        (ringPlanarCentroid r).y * |ringGeodesicSignedAreaSqMeters r|) := by
  simp [geoAccum, if_neg h]

theorem projAccum_single (u : ℝ) (r : List XY) (h : ¬r.length < 3) :
    projAccum u [r] =
      (ringPlanarSignedArea r * u * u,
        (ringPlanarCentroid r).x * |ringPlanarSignedArea r * u * u|,
        (ringPlanarCentroid r).y * |ringPlanarSignedArea r * u * u|) := by
  simp [projAccum, if_neg h]

/-- Geodesic signed area of the axis-aligned degree rectangle
`(0,0)-(a,0)-(a,b)-(0,b)` (not explicitly closed, `b ≠ 0`). -/
theorem ringGeodesic_rect (a b : ℝ) (hb : b ≠ 0) :
    ringGeodesicSignedAreaSqMeters [⟨0, 0⟩, ⟨a, 0⟩, ⟨a, b⟩, ⟨0, b⟩] =
      -(EARTH_RADIUS_METERS * EARTH_RADIUS_METERS) * toRad a * Real.sin (toRad b) := by
  have hcl : closeRingXY [⟨0, 0⟩, ⟨a, 0⟩, ⟨a, b⟩, ⟨0, b⟩] =
      [⟨0, 0⟩, ⟨a, 0⟩, ⟨a, b⟩, ⟨0, b⟩, ⟨0, 0⟩] := by
    exact closeRingXY_of_open [⟨0, 0⟩, ⟨a, 0⟩, ⟨a, b⟩, ⟨0, b⟩] ⟨0, 0⟩ ⟨0, b⟩ rfl rfl
      (by rintro ⟨-, h2⟩; exact hb h2.symm)
  unfold ringGeodesicSignedAreaSqMeters
  rw [hcl]
  rw [geoEdgeSum_cons_cons, geoEdgeSum_cons_cons, geoEdgeSum_cons_cons, geoEdgeSum_cons_cons,
    geoEdgeSum_single]
  unfold geoTerm toRad
  dsimp only
  have h0 : (0 : ℝ) * Real.pi / 180 = 0 := by ring
  rw [h0, Real.sin_zero]
  ring

theorem collinear_geo_zero : ringGeodesicSignedAreaSqMeters collinearEquatorRing = 0 := by
  have hcl : closeRingXY collinearEquatorRing = [⟨0, 0⟩, ⟨1, 0⟩, ⟨2, 0⟩, ⟨0, 0⟩] := by
    exact closeRingXY_of_open collinearEquatorRing ⟨0, 0⟩ ⟨2, 0⟩ rfl rfl
      (by rintro ⟨h1, -⟩; norm_num at h1)
  unfold ringGeodesicSignedAreaSqMeters
  rw [hcl, geoEdgeSum_cons_cons, geoEdgeSum_cons_cons, geoEdgeSum_cons_cons, geoEdgeSum_single]
  unfold geoTerm toRad
  dsimp only
  have h0 : (0 : ℝ) * Real.pi / 180 = 0 := by ring
  rw [h0, Real.sin_zero]
  ring

theorem bigSquare_planar : ringPlanarSignedArea bigSquareRing = 1000000000000 := by
  have hcl : closeRingXY bigSquareRing =
      [⟨0, 0⟩, ⟨1000000, 0⟩, ⟨1000000, 1000000⟩, ⟨0, 1000000⟩, ⟨0, 0⟩] := by
    exact closeRingXY_of_open bigSquareRing ⟨0, 0⟩ ⟨0, 1000000⟩ rfl rfl
      (by rintro ⟨-, h2⟩; norm_num at h2)
  unfold ringPlanarSignedArea
  rw [hcl, planarEdgeSum_cons_cons, planarEdgeSum_cons_cons, planarEdgeSum_cons_cons,
    planarEdgeSum_cons_cons, planarEdgeSum_single]
  norm_num

theorem unitToMeters_none : unitToMeters none = .ok 1 := rfl

theorem projCollinear_planar : ringPlanarSignedArea projCollinearRing = 0 := by
  have hcl : closeRingXY projCollinearRing =
      [⟨1000, 1000⟩, ⟨2000, 2000⟩, ⟨3000, 3000⟩, ⟨1000, 1000⟩] := by
    exact closeRingXY_of_open projCollinearRing ⟨1000, 1000⟩ ⟨3000, 3000⟩ rfl rfl
      (by rintro ⟨h1, -⟩; norm_num at h1)
  unfold ringPlanarSignedArea
  rw [hcl, planarEdgeSum_cons_cons, planarEdgeSum_cons_cons, planarEdgeSum_cons_cons,
    planarEdgeSum_single]
  norm_num

theorem combineRings_bigSquare_eval :
    combineRings [bigSquareRing] .shp ⟨none, some ⟨-120, 45⟩⟩ =
      .ok
        { areaSqMeters := 1000000000000
          areaAcres := 247105381.47
          centroidLat := 45
          centroidLon := -120
          ringCount := 1
          pointCount := 4
          source := .shp } := by
  have hnl : ¬isLikelyLonLat [bigSquareRing] := by
    intro h
    have := h bigSquareRing (by simp) ⟨1000000, 0⟩ (by simp [bigSquareRing])
    have h2 := this.2.1
    norm_num at h2
  have hlen : ¬(bigSquareRing.length < 3) := by norm_num [bigSquareRing]
  have hfst : (projAccum 1 [bigSquareRing]).1 = 1000000000000 := by
    rw [projAccum_single 1 bigSquareRing hlen, bigSquare_planar]
    norm_num
  unfold combineRings
  rw [show ([bigSquareRing].isEmpty) = false from rfl]
  simp only [Bool.false_eq_true, if_false, if_neg hnl]
  rw [unitToMeters_none]
  dsimp only
  rw [hfst]
  rw [if_neg (by norm_num : ¬|(1000000000000 : ℝ)| = 0)]
  have habs : |(1000000000000 : ℝ)| = 1000000000000 := by norm_num
  rw [habs]
  congr 1
  have e1 : round2 (1000000000000 : ℝ) = 1000000000000 := by
    rw [round2_eq_of _ 100000000000000 (by norm_num) (by norm_num)]
    norm_num
  have e2 : round2 ((1000000000000 : ℝ) / SQ_METERS_PER_ACRE) = 247105381.47 := by
    unfold SQ_METERS_PER_ACRE
    rw [round2_eq_of _ 24710538147 (by norm_num) (by norm_num)]
    norm_num
  have e3 : round6 ((45 : ℝ)) = 45 := by
    rw [round6_eq_of _ 45000000 (by norm_num) (by norm_num)]
    norm_num
  have e4 : round6 ((-120 : ℝ)) = -120 := by
    rw [round6_eq_of _ (-120000000) (by norm_num) (by norm_num)]
    norm_num
  simp [e1, e2, e3, e4, bigSquareRing]

/-- **C1 (counterexample).** A degree rectangle of side `1e-9` has strictly
positive geodesic area below 0.005 m², so `combineRings` returns a result
(rather than throwing) whose rounded `areaSqMeters` is exactly 0 — the
claimed invariant `areaSqMeters > 0` fails on a returned result. -/
theorem combineRings_subcentimeter_area_returns_zero :
    (combineRings [tinyRing] .geojson ⟨none, none⟩).map (fun r => r.areaSqMeters) =
      .ok 0 := by
  have hε : (0 : ℝ) < 1/1000000000 := by norm_num
  have hrad_pos : 0 < toRad (1/1000000000) := by
    unfold toRad
    positivity
  have hrad_lt_pi : toRad (1/1000000000) < Real.pi := by
    unfold toRad
    nlinarith [Real.pi_pos]
  have hsin_pos := Real.sin_pos_of_pos_of_lt_pi hrad_pos hrad_lt_pi
  have hsin_lt := Real.sin_lt hrad_pos
  have hrad_ub : toRad (1/1000000000) < 2/100000000000 := by
    unfold toRad
    nlinarith [Real.pi_lt_d2]
  have hR : (0 : ℝ) < EARTH_RADIUS_METERS * EARTH_RADIUS_METERS := by
    unfold EARTH_RADIUS_METERS
    norm_num
  have hA : ringGeodesicSignedAreaSqMeters tinyRing =
      -(EARTH_RADIUS_METERS * EARTH_RADIUS_METERS) * toRad (1/1000000000) *
        Real.sin (toRad (1/1000000000)) := ringGeodesic_rect _ _ (by norm_num)
  have hlen : ¬(tinyRing.length < 3) := by norm_num [tinyRing]
  have hfst : (geoAccum [tinyRing]).1 = ringGeodesicSignedAreaSqMeters tinyRing := by
    rw [geoAccum_single tinyRing hlen]
  have hAneg : ringGeodesicSignedAreaSqMeters tinyRing < 0 := by
    rw [hA]
    nlinarith [mul_pos (mul_pos hR hrad_pos) hsin_pos]
  have habs : |(geoAccum [tinyRing]).1| =
      EARTH_RADIUS_METERS * EARTH_RADIUS_METERS * toRad (1/1000000000) *
        Real.sin (toRad (1/1000000000)) := by
    rw [hfst, abs_of_neg hAneg, hA]
    ring
  have hXpos : 0 < EARTH_RADIUS_METERS * EARTH_RADIUS_METERS * toRad (1/1000000000) *
      Real.sin (toRad (1/1000000000)) := by
    apply mul_pos (mul_pos hR hrad_pos) hsin_pos
  have hzero : ¬|(geoAccum [tinyRing]).1| = 0 := by
    rw [habs]
    exact ne_of_gt hXpos
  have hX_lt : EARTH_RADIUS_METERS * EARTH_RADIUS_METERS * toRad (1/1000000000) *
      Real.sin (toRad (1/1000000000)) < 1/10000000 := by
    have step1 : EARTH_RADIUS_METERS * EARTH_RADIUS_METERS * toRad (1/1000000000) *
        Real.sin (toRad (1/1000000000)) ≤
        EARTH_RADIUS_METERS * EARTH_RADIUS_METERS * toRad (1/1000000000) *
          toRad (1/1000000000) := by
      nlinarith [mul_pos hR hrad_pos]
    have ht2 : toRad (1/1000000000) * toRad (1/1000000000) <
        ((2 : ℝ)/100000000000) * (2/100000000000) :=
      mul_lt_mul'' hrad_ub hrad_ub (le_of_lt hrad_pos) (le_of_lt hrad_pos)
    have step2 : EARTH_RADIUS_METERS * EARTH_RADIUS_METERS * toRad (1/1000000000) *
        toRad (1/1000000000) <
        EARTH_RADIUS_METERS * EARTH_RADIUS_METERS * (2/100000000000) *
          (2/100000000000) := by
      have h := mul_lt_mul_of_pos_left ht2 hR
      ring_nf at h ⊢
      linarith
    have step3 : EARTH_RADIUS_METERS * EARTH_RADIUS_METERS * ((2 : ℝ)/100000000000) *
        (2/100000000000) < 1/10000000 := by
      unfold EARTH_RADIUS_METERS
      norm_num
    linarith
  have hll : isLikelyLonLat [tinyRing] := by
    intro ring hr p hp
    rw [List.mem_singleton] at hr
    subst hr
    simp only [tinyRing, List.mem_cons, List.mem_singleton, List.not_mem_nil, or_false] at hp
    rcases hp with rfl | rfl | rfl | rfl <;> norm_num
  unfold combineRings
  rw [show ([tinyRing].isEmpty) = false from rfl]
  simp only [Bool.false_eq_true, if_false]
  rw [if_pos hll]
  rw [if_neg hzero]
  simp only [Except.map]
  congr 1
  rw [habs, round2_eq_of _ 0 (by nlinarith) (by push_cast; nlinarith)]
  norm_num

/-- **C1 (amended).** Whenever `combineRings` returns a result its
`areaSqMeters` is nonnegative, and in either branch (geographic or
projected) the pre-rounding accumulated absolute area behind a returned
result is strictly positive — `areaSqMeters` is its 2-decimal rounding,
which can still be 0. An input whose accumulated signed area is zero makes
`combineRings` throw `Polygon area is zero.` in both branches: the
geographic branch when the geodesic accumulator is zero, and the projected
branch (after a successful unit resolution) when the planar accumulator is
zero. -/
theorem combineRings_area_nonneg_and_zero_throws (rings : List (List XY))
    (source : PolygonSource) (options : CombineOptions) :
    (∀ r, combineRings rings source options = .ok r → 0 ≤ r.areaSqMeters) ∧
      (∀ r, combineRings rings source options = .ok r →
        (isLikelyLonLat rings →
          0 < |(geoAccum rings).1| ∧ r.areaSqMeters = round2 |(geoAccum rings).1|) ∧
        (∀ u, ¬isLikelyLonLat rings → unitToMeters options.prjText = Except.ok u →
          0 < |(projAccum u rings).1| ∧
            r.areaSqMeters = round2 |(projAccum u rings).1|)) ∧
      (rings ≠ [] → isLikelyLonLat rings → (geoAccum rings).1 = 0 →
        combineRings rings source options = .error ("Polygon area is zero.")) ∧
      (rings ≠ [] → ¬isLikelyLonLat rings →
        ∀ u, unitToMeters options.prjText = Except.ok u → (projAccum u rings).1 = 0 →
          combineRings rings source options = .error ("Polygon area is zero.")) := by
  refine ⟨?_, ?_, ?_, ?_⟩
  · intro r hr
    unfold combineRings at hr
    by_cases he : rings.isEmpty = true
    · rw [if_pos he] at hr
      exact absurd hr (by simp)
    · rw [if_neg he] at hr
      by_cases hll : isLikelyLonLat rings
      · rw [if_pos hll] at hr
        by_cases hz : |(geoAccum rings).1| = 0
        · rw [if_pos hz] at hr
          exact absurd hr (by simp)
        · rw [if_neg hz] at hr
          cases hr
          exact round2_nonneg _ (abs_nonneg _)
      · rw [if_neg hll] at hr
        cases hu : unitToMeters options.prjText with
        | error e =>
          rw [hu] at hr
          exact absurd hr (by simp)
        | ok u =>
          rw [hu] at hr
          dsimp only at hr
          by_cases hz : |(projAccum u rings).1| = 0
          · rw [if_pos hz] at hr
            exact absurd hr (by simp)
          · rw [if_neg hz] at hr
            cases hd : options.dbfLonLat with
            | none =>
              rw [hd] at hr
              exact absurd hr (by simp)
            | some ll =>
              rw [hd] at hr
              cases hr
              exact round2_nonneg _ (abs_nonneg _)
  · intro r hr
    constructor
    · intro hll
      unfold combineRings at hr
      by_cases he : rings.isEmpty = true
      · rw [if_pos he] at hr
        exact absurd hr (by simp)
      · rw [if_neg he, if_pos hll] at hr
        by_cases hz : |(geoAccum rings).1| = 0
        · rw [if_pos hz] at hr
          exact absurd hr (by simp)
        · rw [if_neg hz] at hr
          cases hr
          exact ⟨lt_of_le_of_ne (abs_nonneg _) (Ne.symm hz), rfl⟩
    · intro u hnl hu
      unfold combineRings at hr
      by_cases he : rings.isEmpty = true
      · rw [if_pos he] at hr
        exact absurd hr (by simp)
      · rw [if_neg he, if_neg hnl, hu] at hr
        dsimp only at hr
        by_cases hz : |(projAccum u rings).1| = 0
        · rw [if_pos hz] at hr
          exact absurd hr (by simp)
        · rw [if_neg hz] at hr
          cases hd : options.dbfLonLat with
          | none =>
            rw [hd] at hr
            exact absurd hr (by simp)
          | some ll =>
            rw [hd] at hr
            cases hr
            exact ⟨lt_of_le_of_ne (abs_nonneg _) (Ne.symm hz), rfl⟩
  · intro hne hll hz
    unfold combineRings
    have he : rings.isEmpty = false := by
      cases rings with
      | nil => exact absurd rfl hne
      | cons a l => rfl
    rw [he]
    simp only [Bool.false_eq_true, if_false]
    rw [if_pos hll, if_pos (by rw [hz, abs_zero])]
  · intro hne hnl u hu hz
    unfold combineRings
    have he : rings.isEmpty = false := by
      cases rings with
      | nil => exact absurd rfl hne
      | cons a l => rfl
    rw [he]
    simp only [Bool.false_eq_true, if_false]
    rw [if_neg hnl, hu]
    dsimp only
    rw [if_pos (by rw [hz, abs_zero])]

theorem combineRings_area_nonneg_and_zero_throws_witness :
    (0 : ℝ) ≤ (PolygonFileResult.mk 1000000000000 247105381.47 45 (-120) 1 4 .shp).areaSqMeters ∧
      (0 < |(projAccum 1 [bigSquareRing]).1| ∧
        (PolygonFileResult.mk 1000000000000 247105381.47 45 (-120) 1 4 .shp).areaSqMeters =
          round2 |(projAccum 1 [bigSquareRing]).1|) ∧
      combineRings [collinearEquatorRing] .geojson ⟨none, none⟩ =
        .error ("Polygon area is zero.") ∧
      combineRings [projCollinearRing] .shp ⟨none, none⟩ =
        .error ("Polygon area is zero.") := by
  have hnlBig : ¬isLikelyLonLat [bigSquareRing] := by
    intro h
    have := h bigSquareRing (by simp) ⟨1000000, 0⟩ (by simp [bigSquareRing])
    have h2 := this.2.1
    norm_num at h2
  have hnlProj : ¬isLikelyLonLat [projCollinearRing] := by
    intro h
    have := h projCollinearRing (by simp) ⟨1000, 1000⟩ (by simp [projCollinearRing])
    have h2 := this.2.1
    norm_num at h2
  refine ⟨?_, ?_, ?_, ?_⟩
  · exact (combineRings_area_nonneg_and_zero_throws [bigSquareRing] .shp
      ⟨none, some ⟨-120, 45⟩⟩).1 _ combineRings_bigSquare_eval
  · exact ((combineRings_area_nonneg_and_zero_throws [bigSquareRing] .shp
      ⟨none, some ⟨-120, 45⟩⟩).2.1 _ combineRings_bigSquare_eval).2 1 hnlBig
      unitToMeters_none
  · apply (combineRings_area_nonneg_and_zero_throws [collinearEquatorRing] .geojson
      ⟨none, none⟩).2.2.1
    · simp
    · intro ring hr p hp
      rw [List.mem_singleton] at hr
      subst hr
      simp only [collinearEquatorRing, List.mem_cons, List.mem_singleton,
        List.not_mem_nil, or_false] at hp
      rcases hp with rfl | rfl | rfl <;> norm_num
    · rw [geoAccum_single collinearEquatorRing (by norm_num [collinearEquatorRing]),
        collinear_geo_zero]
  · apply (combineRings_area_nonneg_and_zero_throws [projCollinearRing] .shp
      ⟨none, none⟩).2.2.2
    · simp
    · exact hnlProj
    · exact unitToMeters_none
    · rw [projAccum_single 1 projCollinearRing (by norm_num [projCollinearRing]),
        projCollinear_planar]
      norm_num

/-- **C10.** With a valid 100-byte header (file code 9994) the shapefile
reader enters its record loop at offset 100, and whenever the loop reaches
a record whose 8-byte header does not fit in the buffer, or whose declared
content length would extend past the end of the buffer, it stops at that
record without error and returns exactly the rings collected from the
earlier records. -/
theorem shp_truncated_record_stops (bytes : List ℕ) :
    (100 ≤ bytes.length → getI32BE bytes 0 = .ok 9994 →
      parseShpRings bytes = shpLoop bytes (bytes.length + 1) 100 []) ∧
      ∀ fuel : ℕ, ∀ offset : ℤ, ∀ rings : List (List XY),
        ((bytes.length : ℤ) < offset + 8 → shpLoop bytes (fuel + 1) offset rings = .ok rings) ∧
          (∀ w : ℤ, getI32BE bytes (offset + 4) = .ok w → offset + 8 ≤ (bytes.length : ℤ) →
            (bytes.length : ℤ) < offset + 8 + w * 2 →
            shpLoop bytes (fuel + 1) offset rings = .ok rings) := by
  constructor
  · intro hlen hcode
    unfold parseShpRings
    rw [if_neg (by omega), hcode]
    dsimp only
    rw [if_neg (by norm_num)]
  · intro fuel offset rings
    constructor
    · intro hlt
      unfold shpLoop
      rw [if_pos hlt]
    · intro w hw h8 hcontent
      unfold shpLoop
      rw [if_neg (by omega), hw]
      dsimp only
      rw [if_pos hcontent]

theorem shp_truncated_record_stops_witness :
    parseShpRings shpLyingRecord = shpLoop shpLyingRecord 109 100 [] ∧
      shpLoop shpHeaderTruncated 5 100 [] = .ok [] ∧
      shpLoop shpLyingRecord 9 100 [] = .ok [] := by
  refine ⟨?_, ?_, ?_⟩
  · exact (shp_truncated_record_stops shpLyingRecord).1 (by decide) rfl
  · exact ((shp_truncated_record_stops shpHeaderTruncated).2 4 100 []).1 (by decide)
  · exact ((shp_truncated_record_stops shpLyingRecord).2 8 100 []).2 50 rfl (by decide)
      (by decide)

theorem getU32LE_eq (bytes : List ℕ) (i : ℕ) (h : i + 4 ≤ bytes.length) :
    getU32LE bytes i = .ok (u32LEnat bytes i) := by
  unfold getU32LE
  rw [if_pos h]

theorem getU16LE_eq (bytes : List ℕ) (i : ℕ) (h : i + 2 ≤ bytes.length) :
    getU16LE bytes i = .ok (u16LEnat bytes i) := by
  unfold getU16LE
  rw [if_pos h]

theorem eocdScan_none (bytes : List ℕ)
    (H : ∀ j : ℕ, j + 22 ≤ bytes.length → bytes.length ≤ j + 65557 →
      u32LEnat bytes j ≠ 0x06054b50) :
    ∀ steps i : ℕ, i + 22 ≤ bytes.length → bytes.length + steps ≤ i + 65558 →
      eocdScan bytes i steps = none := by
  intro steps
  induction steps with
  | zero =>
    intro i _ _
    simp [eocdScan]
  | succ k ih =>
    intro i h1 h2
    unfold eocdScan
    rw [if_neg (H i h1 (by omega))]
    cases i with
    | zero => rfl
    | succ j => exact ih j (by omega) (by omega)

/-- **C3 (amended).** The archive reader throws `Invalid ZIP file.` whenever
no end-of-central-directory magic occurs in the trailing ~64KB search
window; a member whose local file header signature does not match
`0x04034b50` is skipped — the walk moves on to the next central-directory
entry with the member map unchanged — rather than aborting the parse. -/
theorem zip_eocd_error_and_local_sig_skip (inflate : List ℕ → List ℕ) (bytes : List ℕ) :
    ((∀ i : ℕ, i + 22 ≤ bytes.length → bytes.length ≤ i + 65557 →
        u32LEnat bytes i ≠ 0x06054b50) →
      parseZipEntries inflate bytes = .error ("Invalid ZIP file.")) ∧
      ∀ n ptr : ℕ, ∀ files : List (String × List ℕ), ptr + 46 ≤ bytes.length →
        u32LEnat bytes ptr = 0x02014b50 →
        u32LEnat bytes (ptr + 42) + 4 ≤ bytes.length →
        u32LEnat bytes (u32LEnat bytes (ptr + 42)) ≠ 0x04034b50 →
        zipLoop inflate bytes (n + 1) ptr files =
          zipLoop inflate bytes n
            (ptr + 46 + u16LEnat bytes (ptr + 28) + u16LEnat bytes (ptr + 30) +
              u16LEnat bytes (ptr + 32)) files := by
  constructor
  · intro H
    have hfind : findEOCD bytes = none := by
      unfold findEOCD
      by_cases h22 : 22 ≤ bytes.length
      · rw [if_pos h22]
        exact eocdScan_none bytes H _ _ (by omega) (by omega)
      · rw [if_neg h22]
    unfold parseZipEntries
    rw [hfind]
  · intro n ptr files hb hsig hlho hlsig
    have haction : zipEntryAction inflate bytes ptr =
        .skip (ptr + 46 + u16LEnat bytes (ptr + 28) + u16LEnat bytes (ptr + 30) +
          u16LEnat bytes (ptr + 32)) := by
      unfold zipEntryAction
      rw [getU32LE_eq bytes ptr (by omega)]
      dsimp only
      rw [hsig, if_neg (by norm_num)]
      rw [getU16LE_eq bytes (ptr + 10) (by omega)]
      dsimp only
      rw [getU32LE_eq bytes (ptr + 20) (by omega)]
      dsimp only
      rw [getU16LE_eq bytes (ptr + 28) (by omega)]
      dsimp only
      rw [getU16LE_eq bytes (ptr + 30) (by omega)]
      dsimp only
      rw [getU16LE_eq bytes (ptr + 32) (by omega)]
      dsimp only
      rw [getU32LE_eq bytes (ptr + 42) (by omega)]
      dsimp only
      rw [getU32LE_eq bytes (u32LEnat bytes (ptr + 42)) (by omega)]
      dsimp only
      rw [if_pos hlsig]
    conv_lhs => unfold zipLoop
    rw [haction]

/-- **C3 (counterexample).** In `zipBufC3` the single member's local header
signature does not match, yet `parseZipEntries` returns successfully (an
empty member map) instead of throwing. -/
theorem zip_local_sig_mismatch_not_fatal :
    u32LEnat zipBufC3 (u32LEnat zipBufC3 (4 + 42)) ≠ 0x04034b50 ∧
      parseZipEntries (fun b => b) zipBufC3 = .ok [] := by
  constructor
  · decide
  · decide

theorem zip_eocd_error_and_local_sig_skip_witness :
    parseZipEntries (fun b => b) zipNoEocd = .error ("Invalid ZIP file.") ∧
      zipLoop (fun b => b) zipNoEocd 1 0 [] =
        zipLoop (fun b => b) zipNoEocd 0
          (0 + 46 + u16LEnat zipNoEocd (0 + 28) + u16LEnat zipNoEocd (0 + 30) +
            u16LEnat zipNoEocd (0 + 32)) [] := by
  constructor
  · apply (zip_eocd_error_and_local_sig_skip (fun b => b) zipNoEocd).1
    have hb : ∀ i < 26, u32LEnat zipNoEocd i ≠ 0x06054b50 := by decide
    intro i h1 h2
    exact hb i (by simp [zipNoEocd] at h1; omega)
  · exact (zip_eocd_error_and_local_sig_skip (fun b => b) zipNoEocd).2 0 0 []
      (by decide) (by decide) (by decide) (by decide)

theorem mapGet_nil (k : String) : mapGet [] k = none := rfl

theorem mapGet_cons (a : String × List ℕ) (m : List (String × List ℕ)) (k : String) :
    mapGet (a :: m) k = if (a.1 == k) = true then some a.2 else mapGet m k := by
  by_cases h : (a.1 == k) = true
  · simp [mapGet, List.find?_cons, h]
  · have h' : (a.1 == k) = false := by
      revert h
      cases a.1 == k <;> simp
    simp [mapGet, List.find?_cons, h']

theorem mapGet_map_overwrite_same (k : String) (v : List ℕ) :
    ∀ m : List (String × List ℕ), (m.any fun p => p.1 == k) = true →
      mapGet (m.map fun p => if p.1 == k then (k, v) else p) k = some v := by
  intro m
  induction m with
  | nil => intro h; simp at h
  | cons a m ih =>
    intro h
    rw [List.map_cons]
    by_cases ha : (a.1 == k) = true
    · rw [if_pos ha, mapGet_cons]
      simp
    · rw [if_neg ha, mapGet_cons, if_neg ha]
      apply ih
      rw [List.any_cons] at h
      rcases Bool.or_eq_true_iff.mp h with h1 | h1
      · exact absurd h1 ha
      · exact h1

theorem mapGet_map_overwrite_ne (k k' : String) (v : List ℕ) (hk : k' ≠ k) :
    ∀ m : List (String × List ℕ),
      mapGet (m.map fun p => if p.1 == k then (k, v) else p) k' = mapGet m k' := by
  intro m
  induction m with
  | nil => rfl
  | cons a m ih =>
    rw [List.map_cons]
    by_cases ha : (a.1 == k) = true
    · rw [if_pos ha, mapGet_cons, mapGet_cons]
      have hak : a.1 = k := by simpa using ha
      have h1 : ¬((k : String) == k') = true := by
        simp only [beq_iff_eq]
        exact fun e => hk e.symm
      have h2 : ¬(a.1 == k') = true := by
        simp only [beq_iff_eq, hak]
        exact fun e => hk e.symm
      rw [if_neg h1, if_neg h2, ih]
    · rw [if_neg ha, mapGet_cons, mapGet_cons, ih]

theorem mapGet_append_single_ne (m : List (String × List ℕ)) (k k' : String)
    (v : List ℕ) (hk : k' ≠ k) : mapGet (m ++ [(k, v)]) k' = mapGet m k' := by
  induction m with
  | nil =>
    rw [List.nil_append, mapGet_cons, mapGet_nil]
    exact if_neg (by simpa using fun e : k = k' => hk e.symm)
  | cons a m ih =>
    rw [List.cons_append, mapGet_cons, mapGet_cons, ih]

theorem mapGet_mapSet_self (m : List (String × List ℕ)) (k : String) (v : List ℕ) :
    mapGet (mapSet m k v) k = some v := by
  unfold mapSet
  by_cases h : (m.any fun p => p.1 == k) = true
  · rw [if_pos h]
    exact mapGet_map_overwrite_same k v m h
  · rw [if_neg h]
    induction m with
    | nil => simp [mapGet_cons]
    | cons a m ih =>
      rw [List.cons_append, mapGet_cons]
      rw [List.any_cons] at h
      have ha : ¬(a.1 == k) = true := fun hh => h (by rw [hh]; simp)
      rw [if_neg ha]
      exact ih (fun hh => h (by rw [hh]; simp))

theorem mapGet_mapSet_ne (m : List (String × List ℕ)) (k k' : String) (v : List ℕ)
    (hk : k' ≠ k) : mapGet (mapSet m k v) k' = mapGet m k' := by
  unfold mapSet
  by_cases h : (m.any fun p => p.1 == k) = true
  · rw [if_pos h]
    exact mapGet_map_overwrite_ne k k' v hk m
  · rw [if_neg h]
    exact mapGet_append_single_ne m k k' v hk

theorem countKey_map_overwrite (k k' : String) (v : List ℕ) :
    ∀ m : List (String × List ℕ),
      countKey (m.map fun p => if p.1 == k then (k, v) else p) k' = countKey m k' := by
  intro m
  induction m with
  | nil => rfl
  | cons a m ih =>
    rw [List.map_cons]
    unfold countKey at *
    by_cases ha : (a.1 == k) = true
    · have hak : a.1 = k := by simpa using ha
      rw [if_pos ha]
      rw [List.filter_cons, List.filter_cons]
      have hkk : ((k, v).1 == k') = (a.1 == k') := by rw [hak]
      rw [hkk]
      cases h' : a.1 == k'
      · rw [if_neg (by simp), if_neg (by simp)]
        exact ih
      · rw [if_pos rfl, if_pos rfl]
        simp only [List.length_cons]
        rw [ih]
    · rw [if_neg ha, List.filter_cons, List.filter_cons]
      cases h' : a.1 == k'
      · rw [if_neg (by simp), if_neg (by simp)]
        exact ih
      · rw [if_pos rfl, if_pos rfl]
        simp only [List.length_cons]
        rw [ih]

theorem countKey_append_single (m : List (String × List ℕ)) (k k' : String) (v : List ℕ) :
    countKey (m ++ [(k, v)]) k' = countKey m k' + (if (k == k') = true then 1 else 0) := by
  unfold countKey
  rw [List.filter_append]
  cases h : (k : String) == k' <;> simp [List.filter_cons, h]

theorem countKey_pos_of_any (m : List (String × List ℕ)) (k : String)
    (h : (m.any fun p => p.1 == k) = true) : 0 < countKey m k := by
  unfold countKey
  obtain ⟨x, hx, hpx⟩ := List.any_eq_true.mp h
  have : x ∈ m.filter fun p => p.1 == k := List.mem_filter.mpr ⟨hx, hpx⟩
  exact List.length_pos.mpr (List.ne_nil_of_mem this)

theorem countKey_zero_of_not_any (m : List (String × List ℕ)) (k : String)
    (h : ¬(m.any fun p => p.1 == k) = true) : countKey m k = 0 := by
  unfold countKey
  rw [List.length_eq_zero]
  rw [List.filter_eq_nil_iff]
  intro x hx
  intro hpx
  exact h (List.any_eq_true.mpr ⟨x, hx, hpx⟩)

theorem countKey_mapSet_self (m : List (String × List ℕ)) (k : String) (v : List ℕ)
    (hm : countKey m k ≤ 1) : countKey (mapSet m k v) k = 1 := by
  unfold mapSet
  by_cases h : (m.any fun p => p.1 == k) = true
  · rw [if_pos h, countKey_map_overwrite]
    have := countKey_pos_of_any m k h
    omega
  · rw [if_neg h, countKey_append_single, countKey_zero_of_not_any m k h]
    simp

theorem countKey_mapSet_ne (m : List (String × List ℕ)) (k k' : String) (v : List ℕ)
    (hk : k' ≠ k) : countKey (mapSet m k v) k' = countKey m k' := by
  unfold mapSet
  by_cases h : (m.any fun p => p.1 == k) = true
  · rw [if_pos h, countKey_map_overwrite]
  · rw [if_neg h, countKey_append_single]
    rw [if_neg (by simpa using fun e : k = k' => hk e.symm)]
    omega

theorem foldl_mapSet_get (k : String) :
    ∀ ms acc : List (String × List ℕ),
      mapGet (ms.foldl (fun m kv => mapSet m kv.1 kv.2) acc) k =
        ((ms.filter fun p => p.1 == k).getLast?).elim (mapGet acc k) (fun p => some p.2) := by
  intro ms
  induction ms with
  | nil => intro acc; rfl
  | cons a ms ih =>
    intro acc
    rw [List.foldl_cons, ih (mapSet acc a.1 a.2), List.filter_cons]
    by_cases ha : (a.1 == k) = true
    · have hak : a.1 = k := by simpa using ha
      rw [if_pos ha]
      rcases hl : ms.filter (fun p => p.1 == k) with _ | ⟨q, qs⟩
      · rw [hl]
        simp only [List.getLast?_singleton, Option.elim_some, Option.elim_none,
          List.getLast?_nil]
        rw [hak]
        exact mapGet_mapSet_self acc k a.2
      · rw [hl, List.getLast?_cons_cons]
        cases hgl : (q :: qs).getLast? with
        | none => exact absurd (List.getLast?_eq_none_iff.mp hgl) (by simp)
        | some z => rfl
    · rw [if_neg ha]
      cases hgl : (ms.filter fun p => p.1 == k).getLast? with
      | none =>
        simp only [Option.elim_none]
        have hk : k ≠ a.1 := by
          intro e
          exact ha (by simp [e.symm])
        exact mapGet_mapSet_ne acc a.1 k a.2 hk
      | some z => rfl

theorem foldl_mapSet_count (k : String) :
    ∀ ms acc : List (String × List ℕ), countKey acc k ≤ 1 →
      countKey (ms.foldl (fun m kv => mapSet m kv.1 kv.2) acc) k =
        if (ms.any fun p => p.1 == k) = true then 1 else countKey acc k := by
  intro ms
  induction ms with
  | nil =>
    intro acc hacc
    simp
  | cons a ms ih =>
    intro acc hacc
    rw [List.foldl_cons]
    by_cases ha : (a.1 == k) = true
    · have hak : a.1 = k := by simpa using ha
      have h1 : countKey (mapSet acc a.1 a.2) k = 1 := by
        rw [hak]
        exact countKey_mapSet_self acc k a.2 hacc
      rw [ih _ (by rw [h1]), h1, List.any_cons, ha]
      simp
    · have hk : k ≠ a.1 := by
        intro e
        exact ha (by simp [e.symm])
      have h2 : countKey (mapSet acc a.1 a.2) k = countKey acc k :=
        countKey_mapSet_ne acc a.1 k a.2 hk
      rw [ih _ (by rw [h2]; exact hacc), h2]
      have ha' : (a.1 == k) = false := by
        revert ha
        cases a.1 == k <;> simp
      rw [List.any_cons, ha']
      rfl

theorem zipLoop_eq_members (inflate : List ℕ → List ℕ) (bytes : List ℕ) :
    ∀ n ptr files,
      zipLoop inflate bytes n ptr files =
        (zipMembersLoop inflate bytes n ptr).map
          (fun ms => ms.foldl (fun m kv => mapSet m kv.1 kv.2) files) := by
  intro n
  induction n with
  | zero =>
    intro ptr files
    rfl
  | succ n ih =>
    intro ptr files
    conv_lhs => unfold zipLoop
    conv_rhs => unfold zipMembersLoop
    cases h : zipEntryAction inflate bytes ptr with
    | fail e => rfl
    | stop => rfl
    | skip next => exact ih next files
    | store name payload next =>
      dsimp only
      rw [ih next]
      cases hm : zipMembersLoop inflate bytes n next with
      | error e => rfl
      | ok ms =>
        simp only [Except.map]
        by_cases hname : name = String.mk []
        · rw [if_pos hname, if_pos hname]
        · rw [if_neg hname, if_neg hname, List.foldl_cons]

/-- **C9.** Whenever `parseZipEntries` succeeds with member map `m` and the
archive's stored-member sequence (in central-directory order) is `ms`, the
map holds exactly one entry for a name that occurs in `ms` (and none for a
name that does not), and the entry's payload is the payload of the **last**
member of that name in central-directory order — later members overwrite
earlier ones. -/
theorem zip_last_member_wins (inflate : List ℕ → List ℕ) (bytes : List ℕ)
    (m ms : List (String × List ℕ)) (k : String)
    (hm : parseZipEntries inflate bytes = .ok m)
    (hms : zipMembers inflate bytes = .ok ms) :
    countKey m k = (if (ms.any fun p => p.1 == k) = true then 1 else 0) ∧
      mapGet m k = ((ms.filter fun p => p.1 == k).getLast?).map (·.2) := by
  unfold parseZipEntries at hm
  unfold zipMembers at hms
  cases hf : findEOCD bytes with
  | none =>
    rw [hf] at hm
    exact absurd hm (by simp)
  | some eocd =>
    rw [hf] at hm hms
    dsimp only at hm hms
    cases hc : getU32LE bytes (eocd + 16) with
    | error e =>
      rw [hc] at hm
      simp at hm
    | ok cdOffset =>
      rw [hc] at hm hms
      dsimp only at hm hms
      cases ht : getU16LE bytes (eocd + 10) with
      | error e =>
        rw [ht] at hm
        simp at hm
      | ok totalEntries =>
        rw [ht] at hm hms
        dsimp only at hm hms
        rw [zipLoop_eq_members, hms] at hm
        simp only [Except.map] at hm
        cases hm
        constructor
        · rw [foldl_mapSet_count k ms [] (by rw [show countKey [] k = 0 from rfl]; omega)]
          by_cases h : (ms.any fun p => p.1 == k) = true
          · rw [if_pos h, if_pos h]
          · rw [if_neg h, if_neg h]
            rfl
        · rw [foldl_mapSet_get k ms []]
          cases hgl : (ms.filter fun p => p.1 == k).getLast? <;> rfl

set_option maxRecDepth 8000 in
theorem zip_last_member_wins_witness :
    countKey [(("a.txt" : String), ([9, 9] : List ℕ))] ("a.txt") =
        (if (List.any
              [(("a.txt" : String), ([1, 2, 3] : List ℕ)),
               (("a.txt" : String), ([9, 9] : List ℕ))]
              (fun p => p.1 == ("a.txt" : String))) = true
          then 1 else 0) ∧
      mapGet [(("a.txt" : String), ([9, 9] : List ℕ))] ("a.txt") =
        ((List.filter (fun p => p.1 == ("a.txt" : String))
              [(("a.txt" : String), ([1, 2, 3] : List ℕ)),
               (("a.txt" : String), ([9, 9] : List ℕ))]).getLast?).map (·.2) :=
  zip_last_member_wins (fun b => b) zipDup
    [(("a.txt" : String), ([9, 9] : List ℕ))]
    [(("a.txt" : String), ([1, 2, 3] : List ℕ)), (("a.txt" : String), ([9, 9] : List ℕ))]
    ("a.txt") (by decide) (by decide)

theorem ringGeodesic_reverse (ring : List XY) :
    ringGeodesicSignedAreaSqMeters ring.reverse = -ringGeodesicSignedAreaSqMeters ring := by
  unfold ringGeodesicSignedAreaSqMeters
  rw [geoEdgeSum_closeRingXY_reverse]
  ring

theorem pairs_roundtrip (r : List XY) :
    (r.map fun p => Json.arr [Json.num p.x, Json.num p.y]).filterMap pairXY? = r := by
  induction r with
  | nil => rfl
  | cons p r ih => simp [pairXY?, jsNumber?, ih]

theorem pairs_roundtrip_comp (r : List XY) :
    List.filterMap (pairXY? ∘ fun p => Json.arr [Json.num p.x, Json.num p.y]) r = r := by
  induction r with
  | nil => rfl
  | cons p r ih => simp [Function.comp, pairXY?, jsNumber?, ih]

theorem collectRings_twoPolygonDoc (r1 r2 : List XY) (h1 : 3 ≤ r1.length)
    (h2 : 3 ≤ r2.length) : collectGeoJsonRings (twoPolygonDoc r1 r2) = [r1, r2] := by
  unfold collectGeoJsonRings twoPolygonDoc
  simp [jGet, handleGeom, ringPts?, pairs_roundtrip, pairs_roundtrip_comp, h1, h2,
    List.filterMap_cons]

theorem geoAccum_pair (r1 r2 : List XY) (h1 : ¬r1.length < 3) (h2 : ¬r2.length < 3) :
    (geoAccum [r1, r2]).1 =
      ringGeodesicSignedAreaSqMeters r1 + ringGeodesicSignedAreaSqMeters r2 := by
  simp [geoAccum, if_neg h1, if_neg h2]

theorem parseGeoJson_two_polygons_eval (r1 r2 : List XY) (h1 : 3 ≤ r1.length)
    (h2 : 3 ≤ r2.length)
    (hr1 : ∀ p ∈ r1, -180 ≤ p.x ∧ p.x ≤ 180 ∧ -90 ≤ p.y ∧ p.y ≤ 90)
    (hr2 : ∀ p ∈ r2, -180 ≤ p.x ∧ p.x ≤ 180 ∧ -90 ≤ p.y ∧ p.y ≤ 90)
    (hsum : ringGeodesicSignedAreaSqMeters r1 + ringGeodesicSignedAreaSqMeters r2 ≠ 0) :
    (parseGeoJsonText (twoPolygonDoc r1 r2)).map (fun r => (r.ringCount, r.areaSqMeters)) =
      .ok (2,
        round2 |ringGeodesicSignedAreaSqMeters r1 + ringGeodesicSignedAreaSqMeters r2|) := by
  have hll : isLikelyLonLat [r1, r2] := by
    intro ring hr p hp
    simp only [List.mem_cons, List.not_mem_nil, or_false, List.mem_singleton] at hr
    rcases hr with rfl | rfl
    · exact hr1 p hp
    · exact hr2 p hp
  unfold parseGeoJsonText
  rw [collectRings_twoPolygonDoc r1 r2 h1 h2]
  unfold combineRings
  rw [show ([r1, r2].isEmpty) = false from rfl]
  simp only [Bool.false_eq_true, if_false]
  rw [if_pos hll]
  rw [geoAccum_pair r1 r2 (by omega) (by omega)]
  rw [if_neg (by rw [abs_eq_zero]; exact hsum)]
  rfl

/-- **C5 (amended).** A `.geojson` `FeatureCollection` of two single-ring
`Polygon` features (each ring of at least 3 in-range points) yields
`ringCount = 2` and `areaSqMeters` equal to the 2-decimal rounding of the
**absolute value of the sum of the two rings' signed geodesic areas** —
orientation-sensitive, so opposite-winding rings cancel rather than add —
provided that signed sum is nonzero (otherwise the parse throws). -/
theorem geojson_two_polygons_combined (r1 r2 : List XY) (h1 : 3 ≤ r1.length)
    (h2 : 3 ≤ r2.length)
    (hr1 : ∀ p ∈ r1, -180 ≤ p.x ∧ p.x ≤ 180 ∧ -90 ≤ p.y ∧ p.y ≤ 90)
    (hr2 : ∀ p ∈ r2, -180 ≤ p.x ∧ p.x ≤ 180 ∧ -90 ≤ p.y ∧ p.y ≤ 90)
    (hsum : ringGeodesicSignedAreaSqMeters r1 + ringGeodesicSignedAreaSqMeters r2 ≠ 0) :
    (parseGeoJsonText (twoPolygonDoc r1 r2)).map (fun r => (r.ringCount, r.areaSqMeters)) =
      .ok (2,
        round2 |ringGeodesicSignedAreaSqMeters r1 + ringGeodesicSignedAreaSqMeters r2|) :=
  parseGeoJson_two_polygons_eval r1 r2 h1 h2 hr1 hr2 hsum

theorem sin_toRad_30 : Real.sin (toRad 30) = 1/2 := by
  have h : toRad (30 : ℝ) = Real.pi/6 := by
    unfold toRad
    ring
  rw [h, Real.sin_pi_div_six]

theorem geo_ceRingA : ringGeodesicSignedAreaSqMeters ceRingA =
    -(EARTH_RADIUS_METERS * EARTH_RADIUS_METERS) * toRad 20 * (1/2) := by
  unfold ceRingA
  rw [ringGeodesic_rect 20 30 (by norm_num), sin_toRad_30]

theorem geo_witRingB : ringGeodesicSignedAreaSqMeters witRingB =
    -(EARTH_RADIUS_METERS * EARTH_RADIUS_METERS) * toRad 10 * (1/2) := by
  unfold witRingB
  rw [ringGeodesic_rect 10 30 (by norm_num), sin_toRad_30]

theorem geo_ceRingB : ringGeodesicSignedAreaSqMeters ceRingB =
    EARTH_RADIUS_METERS * EARTH_RADIUS_METERS * toRad 10 * (1/2) := by
  have hrev : ceRingB = (witRingB).reverse := by
    unfold ceRingB witRingB
    rfl
  rw [hrev, ringGeodesic_reverse, geo_witRingB]
  ring

theorem geojson_two_polygons_combined_witness :
    (parseGeoJsonText (twoPolygonDoc ceRingA witRingB)).map
        (fun r => (r.ringCount, r.areaSqMeters)) =
      .ok (2,
        round2 |ringGeodesicSignedAreaSqMeters ceRingA +
          ringGeodesicSignedAreaSqMeters witRingB|) := by
  apply geojson_two_polygons_combined
  · norm_num [ceRingA]
  · norm_num [witRingB]
  · intro p hp
    simp only [ceRingA, List.mem_cons, List.mem_singleton, List.not_mem_nil, or_false] at hp
    rcases hp with rfl | rfl | rfl | rfl <;> norm_num
  · intro p hp
    simp only [witRingB, List.mem_cons, List.mem_singleton, List.not_mem_nil, or_false] at hp
    rcases hp with rfl | rfl | rfl | rfl <;> norm_num
  · rw [geo_ceRingA, geo_witRingB]
    apply ne_of_lt
    unfold toRad EARTH_RADIUS_METERS
    nlinarith [Real.pi_pos]

/-- **C5 (counterexample).** For the two-feature `FeatureCollection` built
from `ceRingA` and the oppositely-wound `ceRingB`, the parse succeeds with
`ringCount = 2` and `areaSqMeters = round2 |A1 + A2|`, and that value
differs both from the rounded **sum of the two rings' absolute geodesic
areas** and from the rounded **signed** sum — so the claim's "sum of the
two polygons' individual geodesic areas" is wrong under either reading:
opposite orientations cancel. -/
theorem geojson_two_polygons_cancellation :
    (parseGeoJsonText (twoPolygonDoc ceRingA ceRingB)).map
        (fun r => (r.ringCount, r.areaSqMeters)) =
      .ok (2,
        round2 |ringGeodesicSignedAreaSqMeters ceRingA +
          ringGeodesicSignedAreaSqMeters ceRingB|) ∧
      round2 |ringGeodesicSignedAreaSqMeters ceRingA +
          ringGeodesicSignedAreaSqMeters ceRingB| ≠
        round2 (|ringGeodesicSignedAreaSqMeters ceRingA| +
          |ringGeodesicSignedAreaSqMeters ceRingB|) ∧
      round2 |ringGeodesicSignedAreaSqMeters ceRingA +
          ringGeodesicSignedAreaSqMeters ceRingB| ≠
        round2 (ringGeodesicSignedAreaSqMeters ceRingA +
          ringGeodesicSignedAreaSqMeters ceRingB) := by
  have hπl : (3.141592 : ℝ) < Real.pi := by
    have := Real.pi_gt_d6
    nlinarith
  have hπu : Real.pi < 3.15 := Real.pi_lt_d2
  have hM : EARTH_RADIUS_METERS * EARTH_RADIUS_METERS = 40680631590769 := by
    unfold EARTH_RADIUS_METERS
    norm_num
  have hA1 : ringGeodesicSignedAreaSqMeters ceRingA =
      -(40680631590769 * Real.pi / 18) := by
    rw [geo_ceRingA, hM]
    unfold toRad
    ring
  have hA2 : ringGeodesicSignedAreaSqMeters ceRingB = 40680631590769 * Real.pi / 36 := by
    rw [geo_ceRingB, hM]
    unfold toRad
    ring
  have hsum_eq : ringGeodesicSignedAreaSqMeters ceRingA +
      ringGeodesicSignedAreaSqMeters ceRingB = -(40680631590769 * Real.pi / 36) := by
    rw [hA1, hA2]
    ring
  have hsum_ne : ringGeodesicSignedAreaSqMeters ceRingA +
      ringGeodesicSignedAreaSqMeters ceRingB ≠ 0 := by
    rw [hsum_eq]
    apply ne_of_lt
    nlinarith
  have habs_sum : |ringGeodesicSignedAreaSqMeters ceRingA +
      ringGeodesicSignedAreaSqMeters ceRingB| = 40680631590769 * Real.pi / 36 := by
    rw [hsum_eq, abs_neg, abs_of_pos (by nlinarith)]
  have habs_add : |ringGeodesicSignedAreaSqMeters ceRingA| +
      |ringGeodesicSignedAreaSqMeters ceRingB| = 40680631590769 * Real.pi / 12 := by
    rw [hA1, hA2, abs_neg, abs_of_pos (by nlinarith), abs_of_pos (by nlinarith)]
    ring
  refine ⟨?_, ?_, ?_⟩
  · apply parseGeoJson_two_polygons_eval
    · norm_num [ceRingA]
    · norm_num [ceRingB]
    · intro p hp
      simp only [ceRingA, List.mem_cons, List.mem_singleton, List.not_mem_nil, or_false] at hp
      rcases hp with rfl | rfl | rfl | rfl <;> norm_num
    · intro p hp
      simp only [ceRingB, List.mem_cons, List.mem_singleton, List.not_mem_nil, or_false] at hp
      rcases hp with rfl | rfl | rfl | rfl <;> norm_num
    · exact hsum_ne
  · rw [habs_sum, habs_add]
    unfold round2 jsRound
    have ha : ⌊40680631590769 * Real.pi / 36 * 100 + 1/2⌋ < 400000000000000 := by
      apply Int.floor_lt.mpr
      push_cast
      nlinarith
    have hb : (400000000000000 : ℤ) ≤ ⌊40680631590769 * Real.pi / 12 * 100 + 1/2⌋ := by
      apply Int.le_floor.mpr
      push_cast
      nlinarith
    have hne : ⌊40680631590769 * Real.pi / 36 * 100 + 1/2⌋ ≠
        ⌊40680631590769 * Real.pi / 12 * 100 + 1/2⌋ := by omega
    intro hcontra
    apply hne
    have h2 := (div_eq_div_iff (by norm_num) (by norm_num)).mp hcontra
    have h3 := mul_right_cancel₀ (by norm_num : (100 : ℝ) ≠ 0) h2
    exact_mod_cast h3
  · rw [habs_sum, hsum_eq]
    unfold round2 jsRound
    have ha : (1 : ℤ) ≤ ⌊40680631590769 * Real.pi / 36 * 100 + 1/2⌋ := by
      apply Int.le_floor.mpr
      push_cast
      nlinarith
    have hb : ⌊-(40680631590769 * Real.pi / 36) * 100 + 1/2⌋ < 0 := by
      apply Int.floor_lt.mpr
      push_cast
      nlinarith
    have hne : ⌊40680631590769 * Real.pi / 36 * 100 + 1/2⌋ ≠
        ⌊-(40680631590769 * Real.pi / 36) * 100 + 1/2⌋ := by omega
    intro hcontra
    apply hne
    have h2 := (div_eq_div_iff (by norm_num) (by norm_num)).mp hcontra
    have h3 := mul_right_cancel₀ (by norm_num : (100 : ℝ) ≠ 0) h2
    exact_mod_cast h3
